import Mathlib

/-!
# Verification of `cupyimg.scipy.ndimage.interpolation`

A shallow embedding of the pure-Python control flow of
`src/cupyimg/scipy/ndimage/interpolation.py` (spline-filter dispatch and the
geometric-transform wrappers `map_coordinates`, `affine_transform`, `shift`,
`zoom`, `rotate`).

Modelling conventions:

* GPU arrays (`cupy.ndarray`) are modelled by `Arr`: a shape, a dtype tag, an
  abstract backing-storage identifier (`store`), a C-contiguity flag and a flat
  list of rational values.  Floating-point numbers are modelled by `ℚ`.
* Allocation of a fresh buffer is modelled by an explicit `fresh : ℕ`
  parameter: every array allocated inside a call carries a store id derived
  from `fresh`, and theorems that reason about aliasing hypothesise that
  `fresh` is larger than the store ids of the caller's arrays.
* The CUDA kernels themselves (`_kernels.interp`, `_spline_prefilter_core`) are
  not part of the source tree under verification; a kernel launch is recorded
  as an `Event` in a trace (together with the arguments that the Python layer
  feeds it), and the values it would write are left unmodelled.  All
  properties below are about the Python layer: validation, dtype selection,
  shape computation, event ordering and aliasing.
* Python exceptions are modelled by `Except Err`; the `Err` constructors
  follow the error taxonomy of the specification (each `raise` statement in
  the source is mapped to the corresponding taxonomy entry).
-/

namespace CupyImg

/-- Numpy/cupy dtypes that can reach the interpolation routines. -/
inductive DType
  | bool_ | int8 | int16 | int32 | int64
  | uint8 | uint16 | uint32 | uint64
  | float32 | float64 | complex64 | complex128
deriving DecidableEq, Repr

/-- The numpy dtype "kind" character (`dtype.kind` in the source). -/
def DType.kind : DType → Char
  | .bool_ => 'b'
  | .int8 | .int16 | .int32 | .int64 => 'i'
  | .uint8 | .uint16 | .uint32 | .uint64 => 'u'
  | .float32 | .float64 => 'f'
  | .complex64 | .complex128 => 'c'

/-- `cupy.promote_types a b`, specialised to the promotions the source
performs: the second argument is always one of the four float/complex dtypes
(`min_float_dtype` in `_get_spline_output`, or the coordinate promotion in
`map_coordinates`).  The rules are numpy's: small integers promote with
`float32` to `float32`, 32/64-bit integers to `float64`, and complex absorbs
floats of at most its precision. -/
def promoteTypes (a b : DType) : DType :=
  match b with
  | .float32 =>
    match a with
    | .bool_ | .int8 | .int16 | .uint8 | .uint16 | .float32 => .float32
    | .int32 | .int64 | .uint32 | .uint64 | .float64 => .float64
    | .complex64 => .complex64
    | .complex128 => .complex128
  | .float64 =>
    match a with
    | .complex64 | .complex128 => .complex128
    | _ => .float64
  | .complex64 =>
    match a with
    | .bool_ | .int8 | .int16 | .uint8 | .uint16 | .float32 | .complex64 => .complex64
    | _ => .complex128
  | .complex128 => .complex128
  | _ => b

/-- Floating-point precision (mantissa-width class) of a dtype: 32 for
single-precision real/complex, 64 for double-precision real/complex, 0 for
non-float storage dtypes. -/
def floatPrec : DType → ℕ
  | .float32 | .complex64 => 32
  | .float64 | .complex128 => 64
  | _ => 0

/-- Truncation of a rational toward zero (the C-style cast `astype(int)` and
Python `int(...)` apply to our nonnegative uses). -/
def truncQ (q : ℚ) : ℤ := if 0 ≤ q then ⌊q⌋ else ⌈q⌉

/-- Python 3 `round` on a real number: round half to even (banker's
rounding). -/
def pyRound (q : ℚ) : ℤ :=
  let f := ⌊q⌋
  let r := q - f
  if r < 1/2 then f
  else if 1/2 < r then f + 1
  else if f % 2 = 0 then f else f + 1

/-- Value cast applied when writing into an array of dtype `d`
(`output[...] = x[...]` or `astype`): integer kinds truncate toward zero,
float/complex kinds keep the value (the ℚ model does not round floats). -/
def castVal (d : DType) (q : ℚ) : ℚ :=
  match d.kind with
  | 'i' => (truncQ q : ℚ)
  | 'u' => (truncQ q : ℚ)
  | 'b' => if q = 0 then 0 else 1
  | _ => q

/-- Model of a `cupy.ndarray`: shape, dtype, abstract backing storage id,
C-contiguity flag, and flattened (C-order) element values. -/
structure Arr where
  shape : List ℕ
  dtype : DType
  store : ℕ
  contiguous : Bool
  vals : List ℚ
deriving DecidableEq, Repr

def Arr.ndim (a : Arr) : ℕ := a.shape.length

def Arr.size (a : Arr) : ℕ := a.shape.prod

/-- `cupy.shares_memory(a, b, "MAY_SHARE_BOUNDS")`: conservative bounds
overlap, modelled as equality of the backing-storage ids. -/
def sharesMemory (a b : Arr) : Prop := a.store = b.store

instance (a b : Arr) : Decidable (sharesMemory a b) := by
  unfold sharesMemory; infer_instance

/-- `a.astype(d, copy=False)`: returns `a` itself when the dtype already
matches, otherwise a freshly allocated contiguous cast copy. -/
def astypeCopyFalse (a : Arr) (d : DType) (fresh : ℕ) : Arr :=
  if a.dtype = d then a
  else ⟨a.shape, d, fresh, true, a.vals.map (castVal d)⟩

/-- `a.astype(d)` with the default `copy=True`: always a fresh cast copy. -/
def astypeCopy (a : Arr) (d : DType) (fresh : ℕ) : Arr :=
  ⟨a.shape, d, fresh, true, a.vals.map (castVal d)⟩

/-- `cupy.ascontiguousarray(a)`: `a` itself when already C-contiguous,
otherwise a fresh contiguous copy. -/
def ascontiguous (a : Arr) (fresh : ℕ) : Arr :=
  if a.contiguous then a else { a with store := fresh, contiguous := true }

/-- `a.copy()`. -/
def arrCopy (a : Arr) (fresh : ℕ) : Arr := { a with store := fresh, contiguous := true }

/-- The error taxonomy of the specification; each constructor corresponds to
one family of `raise` statements in the source. -/
inductive Err
  | invalidOrder           -- "spline order is not supported"
  | invalidMode            -- "boundary mode is not supported"
  | shapeMismatch          -- "output shape is not correct"
  | dtypeMismatch          -- "output must have complex dtype for complex inputs"
  | coordDtype             -- "coordinates should have floating point dtype"
  | invalidParameterShape  -- "shift/zoom must be 1d" / "len(...) must equal input.ndim"
  | invalidTransformMatrix -- "no proper affine matrix provided"
  | invalidRotationPlane   -- "invalid rotation plane specified"
  | typeError              -- Python TypeError (round() applied to an array row)
deriving DecidableEq, Repr

/-- Kernel-level work items, in the order the Python layer issues them.
`gainMul` is the in-place `temp *= gain` write; `prefilterKernel` is the
causal/anti-causal IIR spline-prefilter launch along one axis; the remaining
constructors are the sampling (interpolation) kernels, carrying the
per-axis arguments the Python layer computed for them. -/
inductive Event
  | gainMul
  | prefilterKernel (axis : ℕ)
  | mapKernel
  | shiftKernel (sv : List ℚ)
  | zoomKernel (zv : List ℚ)
  | zoomShiftKernel (off zv : List ℚ)
  | affineKernel (m : List (List ℚ))
deriving DecidableEq, Repr

/-- An event is "sampling work": an interpolation-kernel launch, as opposed to
spline-prefilter work. -/
def Event.isSampling : Event → Bool
  | .gainMul | .prefilterKernel _ => false
  | _ => true

/-- The `output` parameter of the public operations: absent, a dtype
specifier, or a caller-provided buffer. -/
inductive OutputArg
  | none
  | dt (d : DType)
  | arr (a : Arr)
deriving DecidableEq, Repr

/-- `_get_output(output, input, shape)` (interpolation.py lines 42-53). -/
def getOutput (output : OutputArg) (input : Arr) (shape : Option (List ℕ))
    (fresh : ℕ) : Except Err Arr :=
  let shp := shape.getD input.shape
  match output with
  | .arr a => if a.shape = shp then .ok a else .error .shapeMismatch
  | .dt d => .ok ⟨shp, d, fresh, true, List.replicate shp.prod 0⟩
  | .none => .ok ⟨shp, input.dtype, fresh, true, List.replicate shp.prod 0⟩

/-- The recognized boundary-mode strings (`_check_parameter`,
interpolation.py lines 79-88). -/
def validModes : List String :=
  ["constant", "nearest", "mirror", "reflect", "wrap", "opencv", "_opencv_edge"]

/-- `_check_parameter(func_name, order, mode)` (interpolation.py lines 56-88);
the `warn` block is statically dead (`warn = False`) and not modelled. -/
def checkParameter (fname : String) (order : ℤ) (mode : String) : Except Err Unit :=
  if order < 0 ∨ 5 < order then .error .invalidOrder
  else if mode ∈ validModes then .ok ()
  else .error .invalidMode

/-- `min_float_dtype` selection in `_get_spline_output`. -/
def minFloatDtype (complexData : Bool) (allowFloat32 : Bool) : DType :=
  if complexData then (if allowFloat32 then .complex64 else .complex128)
  else (if allowFloat32 then .float32 else .float64)

/-- Result triple of `_get_spline_output`. -/
structure SplineOut where
  temp : Arr
  floatDtype : DType
  outputDtype : DType
deriving DecidableEq, Repr

/-- The workspace-derivation tail of `_get_spline_output` (lines 125-129):
`temp = input.astype(float_dtype, copy=False)`, `ascontiguousarray`, and the
`shares_memory` guard forcing a private copy. -/
def deriveTemp (input : Arr) (floatDtype : DType) (fresh : ℕ) : Arr :=
  let t1 := astypeCopyFalse input floatDtype fresh
  let t2 := ascontiguous t1 (fresh + 1)
  if t2.store = input.store then arrCopy t2 (fresh + 2) else t2

/-- `_get_spline_output(input, output, allow_float32)` (interpolation.py
lines 91-130). -/
def getSplineOutput (input : Arr) (output : OutputArg) (allowFloat32 : Bool)
    (fresh : ℕ) : Except Err SplineOut :=
  let complexData := input.dtype.kind = 'c'
  let minFloat := minFloatDtype complexData allowFloat32
  match output with
  | .arr a =>
    if complexData ∧ a.dtype.kind ≠ 'c' then .error .dtypeMismatch
    else
      let floatDtype := promoteTypes a.dtype minFloat
      let outputDtype := a.dtype
      if a.dtype = floatDtype ∧ floatDtype = outputDtype ∧ a.contiguous = true then
        -- reuse branch: "if output is not input: output[...] = input[...]"
        let temp := if a = input then a else { a with vals := input.vals.map (castVal a.dtype) }
        .ok ⟨temp, floatDtype, outputDtype⟩
      else
        .ok ⟨deriveTemp input floatDtype fresh, floatDtype, outputDtype⟩
  | .dt d =>
    .ok ⟨deriveTemp input (promoteTypes d (minFloatDtype (input.dtype.kind = 'c') allowFloat32)) fresh,
         promoteTypes d (minFloatDtype (input.dtype.kind = 'c') allowFloat32), d⟩
  | .none =>
    .ok ⟨deriveTemp input (promoteTypes input.dtype (minFloatDtype (input.dtype.kind = 'c') allowFloat32)) fresh,
         promoteTypes input.dtype (minFloatDtype (input.dtype.kind = 'c') allowFloat32), input.dtype⟩

/-- Modelled from the spec: `_misc._normalize_axis_index` lives outside the
source tree.  The spec treats shape bookkeeping as an external collaborator
and specifies that rank-0 inputs pass through `spline_filter1d` unchanged, so
axis normalization is modelled as a total wrap of the axis into `[0, ndim)`,
with `0` for rank-0 arrays (out-of-range axis errors are not modelled). -/
def normalizeAxisIndex (axis : ℤ) (ndim : ℕ) : ℕ :=
  if ndim = 0 then 0 else (axis % (ndim : ℤ)).toNat

/-- `spline_filter1d(input, order, axis, output, mode, allow_float32)`
(interpolation.py lines 133-225).  The gain multiplication and the IIR kernel
launch are recorded as trace events (`_spline_prefilter_core` is outside the
source tree; the values it writes into `temp` in place are left as they are).
-/
def splineFilter1dM (input : Arr) (order : ℤ) (axis : ℤ) (output : OutputArg)
    (mode : String) (allowFloat32 : Bool) (fresh : ℕ) :
    Except Err Arr × List Event :=
  if order < 0 ∨ order > 5 then (.error .invalidOrder, [])
  else
    let ndim := input.ndim
    let axisN := normalizeAxisIndex axis ndim
    -- run_kernel = not (order < 2 or x.ndim == 0 or x.shape[axis] == 1)
    if order < 2 ∨ ndim = 0 ∨ input.shape.getD axisN 1 = 1 then
      match getOutput output input none fresh with
      | .error e => (.error e, [])
      | .ok out => (.ok { out with vals := input.vals.map (castVal out.dtype) }, [])
    else
      match getSplineOutput input output allowFloat32 fresh with
      | .error e => (.error e, [])
      | .ok so =>
        let temp := so.temp
        let events := [Event.gainMul, Event.prefilterKernel axisN]
        match output with
        | .arr a =>
          if temp = a then (.ok (astypeCopyFalse temp so.outputDtype (fresh + 3)), events)
          else (.ok { a with vals := temp.vals.map (castVal a.dtype) }, events)
        | _ => (.ok (astypeCopyFalse temp so.outputDtype (fresh + 3)), events)

/-- The per-axis loop of `spline_filter` (lines 262-271).  The source ignores
the return value of `spline_filter1d` and relies on in-place mutation of
`temp`; in the functional model the returned array *is* the mutated `temp`,
so it is threaded into both `x` and `temp` of the next iteration
(`x = temp`). -/
def splineFilterAxes (order : ℤ) (mode : String) (allowFloat32 : Bool)
    (fresh : ℕ) : List ℕ → Arr → Arr → Except Err Arr × List Event
  | [], _, temp => (.ok temp, [])
  | ax :: rest, x, temp =>
    match splineFilter1dM x order (ax : ℤ) (.arr temp) mode allowFloat32 fresh with
    | (.error e, evs) => (.error e, evs)
    | (.ok t2, evs) =>
      match splineFilterAxes order mode allowFloat32 fresh rest t2 t2 with
      | (r, evs2) => (r, evs ++ evs2)

/-- `spline_filter(input, order, output, mode, allow_float32)`
(interpolation.py lines 228-278). -/
def splineFilterM (input : Arr) (order : ℤ) (output : OutputArg)
    (mode : String) (allowFloat32 : Bool) (fresh : ℕ) :
    Except Err Arr × List Event :=
  if order < 2 ∨ order > 5 then (.error .invalidOrder, [])
  else
    match getSplineOutput input output allowFloat32 fresh with
    | .error e => (.error e, [])
    | .ok so =>
      let loopRes :=
        if ¬(order = 0 ∨ order = 1) ∧ input.ndim > 0 then
          splineFilterAxes order mode allowFloat32 (fresh + 10)
            (List.range input.ndim) input so.temp
        else (.ok so.temp, [])
      match loopRes with
      | (.error e, evs) => (.error e, evs)
      | (.ok temp, evs) =>
        let out : Arr :=
          match output with
          | .arr a => { a with vals := temp.vals.map (castVal a.dtype) }
          | _ => temp
        let out := if out.dtype ≠ so.outputDtype then astypeCopy out so.outputDtype (fresh + 20) else out
        (.ok out, evs)

/-- The observables a transform operation produces: its output buffer and the
(filtered) array that is fed to the sampling kernel. -/
structure PipeResult where
  ret : Arr
  filtered : Arr
deriving DecidableEq, Repr

/-- `cupy.pad(input, [(1,1)]*ndim, "constant", constant_values=cval)` used by
the opencv path of `map_coordinates`: a fresh array two samples larger along
every axis.  No modelled property consumes the padded values, which are left
as zeros. -/
def padOne (a : Arr) (fresh : ℕ) : Arr :=
  ⟨a.shape.map (· + 2), a.dtype, fresh, true,
   List.replicate (a.shape.map (· + 2)).prod 0⟩

/-- The coordinate-dtype handling of `map_coordinates` (lines 354-373). -/
def coordAdjust (coords : Arr) (order : ℤ) (allowFloat32 : Bool) (fresh : ℕ) :
    Except Err Arr :=
  if coords.dtype.kind = 'i' ∨ coords.dtype.kind = 'u' then
    if order > 1 then
      let cd := if allowFloat32 then promoteTypes coords.dtype .float32
                else promoteTypes coords.dtype .float64
      .ok (astypeCopy coords cd fresh)
    else .ok coords
  else if coords.dtype.kind ≠ 'f' then .error .coordDtype
  else
    let cd := if allowFloat32 then promoteTypes coords.dtype .float32
              else promoteTypes coords.dtype .float64
    .ok (astypeCopyFalse coords cd fresh)

/-- `map_coordinates(input, coordinates, output, order, mode, cval, prefilter,
allow_float32)` (interpolation.py lines 281-402).  The `integer_output` /
`large_int` kernel-specialization flags select compiled kernel variants with
identical Python-level semantics and are not modelled. -/
def mapCoordinatesM (input coordinates : Arr) (output : OutputArg) (order : ℤ)
    (mode : String) (cval : ℚ) (prefilter : Bool) (allowFloat32 : Bool)
    (fresh : ℕ) : Except Err PipeResult × List Event :=
  match checkParameter "map_coordinates" order mode with
  | .error e => (.error e, [])
  | .ok _ =>
    let step :=
      if mode = "opencv" ∨ mode = "_opencv_edge" then
        (padOne input fresh,
         { coordinates with vals := coordinates.vals.map (· + 1) },
         "constant")
      else (input, coordinates, mode)
    let input := step.1
    let coordinates := step.2.1
    let mode := step.2.2
    match getOutput output input (some coordinates.shape.tail) (fresh + 1) with
    | .error e => (.error e, [])
    | .ok ret =>
      let input := if input.dtype.kind = 'i' ∨ input.dtype.kind = 'u'
                   then astypeCopy input .float32 (fresh + 2) else input
      match coordAdjust coordinates order allowFloat32 (fresh + 3) with
      | .error e => (.error e, [])
      | .ok coordinates =>
        match (if prefilter ∧ order > 1 then
                 splineFilterM input order (.dt input.dtype) mode allowFloat32 (fresh + 4)
               else (.ok input, [])) with
        | (.error e, evs) => (.error e, evs)
        | (.ok filtered, evs) =>
          let filtered := ascontiguous filtered (fresh + 30)
          let _coordinates := ascontiguous coordinates (fresh + 31)
          (.ok ⟨ret, filtered⟩, evs ++ [Event.mapKernel])

/-- The `matrix` argument of `affine_transform` after
`cupy.asarray(matrix, dtype=float)`: a vector, a 2-d matrix (list of rows),
or an array of any other rank (`higher n` stands for a rank-`n` array with
`n ∉ {1, 2}`). -/
inductive MatrixArg
  | oneD (v : List ℚ)
  | twoD (rows : List (List ℚ))
  | higher (n : ℕ)
deriving DecidableEq, Repr

/-- The `offset` argument: scalar (broadcast to every axis) or vector. -/
inductive OffsetArg
  | scalar (q : ℚ)
  | vec (l : List ℚ)
deriving DecidableEq, Repr

/-- `matrix[:, -1]` of a 2-d matrix. -/
def lastColumn (rows : List (List ℚ)) : List ℚ := rows.map (fun r => r.getLastD 0)

/-- `matrix[:, :-1]` of a 2-d matrix. -/
def dropLastColumn (rows : List (List ℚ)) : List (List ℚ) := rows.map (fun r => r.dropLast)

/-- The matrix validation/normalization of `affine_transform`
(interpolation.py lines 486-494): rank outside {1, 2} is rejected; a 2-d
matrix of shape `(k, k+1)` is split into matrix and offset columns; otherwise
a 2-d matrix whose first extent is `input.ndim + 1` is sliced as a
homogeneous matrix; any other matrix passes through with the caller's
offset. -/
def affineMatrixNormalize (inputNdim : ℕ) (matrix : MatrixArg) (offset : List ℚ) :
    Except Err (MatrixArg × List ℚ) :=
  match matrix with
  | .higher _ => .error .invalidTransformMatrix
  | .oneD v => .ok (.oneD v, offset)
  | .twoD rows =>
    if (rows.length : ℤ) = ((rows.headD []).length : ℤ) - 1 then
      .ok (.twoD (dropLastColumn rows), lastColumn rows)
    else if rows.length = inputNdim + 1 then
      .ok (.twoD (dropLastColumn rows.dropLast), lastColumn rows.dropLast)
    else .ok (.twoD rows, offset)

/-- The `mode == "opencv"` branch of `affine_transform` (lines 496-505)
builds a homogeneous matrix, inverts it with `cupy.linalg.inv` and rolls its
first rows/columns.  The numeric content of this library computation is not
needed by any property below; it is modelled as an opaque placeholder that
produces a square rank-2 matrix (which is all the downstream kernel dispatch
observes) and a zero offset. -/
def opencvAffineAdjust (ndim : ℕ) (_matrix : MatrixArg) (_offset : List ℚ) :
    MatrixArg × List ℚ :=
  (.twoD (List.replicate ndim (List.replicate ndim 0)), List.replicate ndim 0)

/-- `affine_transform(input, matrix, offset, output_shape, output, order,
mode, cval, prefilter, allow_float32)` (interpolation.py lines 405-566).
The numpy broadcasts `m[:, :-1] = matrix` / `m[:, -1] = offset` feeding the
kernel are modelled by the zip below (a shape mismatch there is a library
broadcast failure, not one of the validation errors of the specification). -/
def affineM (input : Arr) (matrix : MatrixArg) (offset : OffsetArg)
    (outputShape : Option (List ℕ)) (output : OutputArg) (order : ℤ)
    (mode : String) (cval : ℚ) (prefilter : Bool) (allowFloat32 : Bool)
    (fresh : ℕ) : Except Err PipeResult × List Event :=
  match checkParameter "affine_transform" order mode with
  | .error e => (.error e, [])
  | .ok _ =>
    let offsetL : List ℚ :=
      match offset with
      | .scalar q => List.replicate input.ndim q
      | .vec l => l
    match affineMatrixNormalize input.ndim matrix offsetL with
    | .error e => (.error e, [])
    | .ok mo =>
      let mo := if mode = "opencv" then opencvAffineAdjust input.ndim mo.1 mo.2 else mo
      let outShape := outputShape.getD input.shape
      match getOutput output input (some outShape) (fresh + 1) with
      | .error e => (.error e, [])
      | .ok outArr =>
        let input := if input.dtype.kind = 'i' ∨ input.dtype.kind = 'u'
                     then astypeCopy input .float32 (fresh + 2) else input
        match (if prefilter ∧ order > 1 then
                 splineFilterM input order (.dt input.dtype) mode allowFloat32 (fresh + 4)
               else (.ok input, [])) with
        | (.error e, evs) => (.error e, evs)
        | (.ok filtered, evs) =>
          let filtered := ascontiguous filtered (fresh + 30)
          match mo.1 with
          | .oneD v =>
            -- offset = -offset / matrix; zoom-shift kernel
            let off2 := List.zipWith (fun o m => -o / m) mo.2 v
            (.ok ⟨outArr, filtered⟩, evs ++ [Event.zoomShiftKernel off2 v])
          | .twoD rows =>
            -- m = [matrix | offset]; affine kernel
            let m := List.zipWith (fun r o => r ++ [o]) rows mo.2
            (.ok ⟨outArr, filtered⟩, evs ++ [Event.affineKernel m])
          | .higher _ => (.error .invalidTransformMatrix, evs)

/-- The `shift`/`zoom` vector argument before `cupy.asarray`: a scalar
(broadcast to every axis) or an array of the given shape with flattened
values. -/
inductive VecArg
  | scalar (q : ℚ)
  | array (shape : List ℕ) (vals : List ℚ)
deriving DecidableEq, Repr

/-- `shift(input, shift, output, order, mode, cval, prefilter, allow_float32)`
(interpolation.py lines 707-819).  In the opencv branch the source calls
`affine_transform` without forwarding `allow_float32`, so the default `True`
is passed. -/
def shiftM (input : Arr) (shiftArg : VecArg) (output : OutputArg) (order : ℤ)
    (mode : String) (cval : ℚ) (prefilter : Bool) (allowFloat32 : Bool)
    (fresh : ℕ) : Except Err PipeResult × List Event :=
  match checkParameter "shift" order mode with
  | .error e => (.error e, [])
  | .ok _ =>
    let shiftArg :=
      match shiftArg with
      | .scalar q => VecArg.array [input.ndim] (List.replicate input.ndim q)
      | a => a
    if mode = "opencv" then
      let negVals := match shiftArg with
        | .array _ vs => vs.map (fun q => -q)
        | .scalar q => [-q]
      affineM input (.oneD (List.replicate input.ndim 1)) (.vec negVals) none
        output order "_opencv_edge" cval prefilter true (fresh + 1)
    else
      match getOutput output input none (fresh + 1) with
      | .error e => (.error e, [])
      | .ok outArr =>
        let input := if input.dtype.kind = 'i' ∨ input.dtype.kind = 'u'
                     then astypeCopy input .float32 (fresh + 2) else input
        match (if prefilter ∧ order > 1 then
                 splineFilterM input order (.dt input.dtype) mode allowFloat32 (fresh + 4)
               else (.ok input, [])) with
        | (.error e, evs) => (.error e, evs)
        | (.ok filtered, evs) =>
          let filtered := ascontiguous filtered (fresh + 30)
          match shiftArg with
          | .array shp vs =>
            if shp.length ≠ 1 then (.error .invalidParameterShape, evs)
            else if shp.prod ≠ filtered.ndim then (.error .invalidParameterShape, evs)
            else (.ok ⟨outArr, filtered⟩, evs ++ [Event.shiftKernel vs])
          | .scalar _ => (.error .invalidParameterShape, evs)

/-- `zoom(input, zoom, output, order, mode, cval, prefilter, allow_float32)`
(interpolation.py lines 822-954).  A zoom array that is not 1-dimensional
makes `round(s * z)` in the output-shape loop receive an array row: a Python
`TypeError` before any kernel work (the later `zoom.ndim != 1` check on the
recomputed 1-d factor array can never fire and is not modelled).  In the
opencv branch the source calls `affine_transform` without forwarding
`allow_float32`. -/
def zoomM (input : Arr) (zoomArg : VecArg) (output : OutputArg) (order : ℤ)
    (mode : String) (cval : ℚ) (prefilter : Bool) (allowFloat32 : Bool)
    (fresh : ℕ) : Except Err PipeResult × List Event :=
  match checkParameter "zoom" order mode with
  | .error e => (.error e, [])
  | .ok _ =>
    let zoomL : Option (List ℚ) :=
      match zoomArg with
      | .scalar q => some (List.replicate input.ndim q)
      | .array shp vs => if shp.length = 1 then some vs else none
    match zoomL with
    | none => (.error .typeError, [])
    | some zl =>
      let outputShape : List ℕ :=
        List.zipWith (fun (s : ℕ) (z : ℚ) => (pyRound ((s : ℚ) * z)).toNat) input.shape zl
      if mode = "opencv" then
        let ocvZoom := List.zipWith
          (fun (s o : ℕ) => if 1 < o then (s : ℚ) / (o : ℚ) else 0)
          input.shape outputShape
        let ocvOff := List.zipWith
          (fun (s o : ℕ) => if 1 < o then ((s : ℚ) / (o : ℚ) - 1) / 2 else 0)
          input.shape outputShape
        affineM input (.oneD ocvZoom) (.vec ocvOff) (some outputShape) output
          order "nearest" cval prefilter true (fresh + 1)
      else
        let zl2 := List.zipWith
          (fun (s o : ℕ) => if 1 < o then ((s : ℚ) - 1) / ((o : ℚ) - 1) else 0)
          input.shape outputShape
        match getOutput output input (some outputShape) (fresh + 1) with
        | .error e => (.error e, [])
        | .ok outArr =>
          let input := if input.dtype.kind = 'i' ∨ input.dtype.kind = 'u'
                       then astypeCopy input .float32 (fresh + 2) else input
          match (if prefilter ∧ order > 1 then
                   splineFilterM input order (.dt input.dtype) mode allowFloat32 (fresh + 4)
                 else (.ok input, [])) with
          | (.error e, evs) => (.error e, evs)
          | (.ok filtered, evs) =>
            let filtered := ascontiguous filtered (fresh + 30)
            if zl2.length ≠ filtered.ndim then (.error .invalidParameterShape, evs)
            else (.ok ⟨outArr, filtered⟩, evs ++ [Event.zoomKernel zl2])

/-- Largest element of a list of rationals, folded head-first (`0` for the
empty list; every use below starts with a corner value of `0`). -/
def listMaxQ : List ℚ → ℚ
  | [] => 0
  | [q] => q
  | q :: rest => max q (listMaxQ rest)

/-- Smallest element of a list of rationals. -/
def listMinQ : List ℚ → ℚ
  | [] => 0
  | [q] => q
  | q :: rest => min q (listMinQ rest)

/-- The four in-plane corner coordinates `[[0, 0, iy, iy], [0, ix, 0, ix]]`
of `rotate`, as (y, x) pairs. -/
def rotCorners (iy ix : ℕ) : List (ℚ × ℚ) :=
  [(0, 0), (0, (ix : ℚ)), ((iy : ℚ), 0), ((iy : ℚ), (ix : ℚ))]

/-- First row of `rot_matrix @ corners` for `rot_matrix = [[c, s], [-s, c]]`. -/
def rotRow0 (c s : ℚ) (iy ix : ℕ) : List ℚ :=
  (rotCorners iy ix).map (fun p => c * p.1 + s * p.2)

/-- Second row of `rot_matrix @ corners`. -/
def rotRow1 (c s : ℚ) (iy ix : ℕ) : List ℚ :=
  (rotCorners iy ix).map (fun p => -s * p.1 + c * p.2)

/-- `out_bounds.ptp(axis=1)` along the first transformed-plane axis. -/
def rotExtent0 (c s : ℚ) (iy ix : ℕ) : ℚ :=
  listMaxQ (rotRow0 c s iy ix) - listMinQ (rotRow0 c s iy ix)

/-- `out_bounds.ptp(axis=1)` along the second transformed-plane axis. -/
def rotExtent1 (c s : ℚ) (iy ix : ℕ) : ℚ :=
  listMaxQ (rotRow1 c s iy ix) - listMinQ (rotRow1 c s iy ix)

/-- The output-plane shape and in-plane offset computation of `rotate`
(interpolation.py lines 656-688), for an angle whose cosine and sine are the
rationals `c` and `s` (the trigonometric evaluation `deg2rad`/`sin`/`cos` is
the only part abstracted into parameters; everything downstream of it is
exact rational arithmetic in the source's formulas).  Returns
(`out_plane_shape`, `offset[axes]`). -/
def rotateGeom (c s : ℚ) (iy ix : ℕ) (reshape : Bool) : (ℤ × ℤ) × (ℚ × ℚ) :=
  let outPlane : ℤ × ℤ :=
    if reshape then
      -- (out_bounds.ptp(axis=1) + 0.5).astype(int)
      (truncQ (rotExtent0 c s iy ix + 1/2), truncQ (rotExtent1 c s iy ix + 1/2))
    else ((iy : ℤ), (ix : ℤ))
  -- out_center = rot_matrix @ ((out_plane_shape - 1) / 2)
  let oc0 := ((outPlane.1 : ℚ) - 1) / 2
  let oc1 := ((outPlane.2 : ℚ) - 1) / 2
  let outCenter : ℚ × ℚ := (c * oc0 + s * oc1, -s * oc0 + c * oc1)
  -- in_center = (in_plane_shape - 1) / 2
  let inCenter : ℚ × ℚ := (((iy : ℚ) - 1) / 2, ((ix : ℚ) - 1) / 2)
  (outPlane, (inCenter.1 - outCenter.1, inCenter.2 - outCenter.2))

/-- `numpy.identity(n)` as a list of rows. -/
def identRows (n : ℕ) : List (List ℚ) :=
  (List.range n).map (fun i => (List.range n).map (fun j => if i = j then 1 else 0))

/-- Set one entry of a list-of-rows matrix. -/
def setEntry (rows : List (List ℚ)) (i j : ℕ) (q : ℚ) : List (List ℚ) :=
  rows.set i ((rows.getD i []).set j q)

/-- Write the 2×2 rotation block `[[c, s], [-s, c]]` into rows/columns
`i0`, `i1` of an identity matrix (interpolation.py lines 681-685). -/
def setRotBlock (rows : List (List ℚ)) (i0 i1 : ℕ) (c s : ℚ) : List (List ℚ) :=
  setEntry (setEntry (setEntry (setEntry rows i0 i0 c) i0 i1 s) i1 i0 (-s)) i1 i1 c

/-- `rotate(input, angle, axes, reshape, output, order, mode, cval,
prefilter, allow_float32)` (interpolation.py lines 581-704), for an angle
whose cosine and sine are `c` and `s`. -/
def rotateM (input : Arr) (c s : ℚ) (axes0 axes1 : ℤ) (reshape : Bool)
    (output : OutputArg) (order : ℤ) (mode : String) (cval : ℚ)
    (prefilter : Bool) (allowFloat32 : Bool) (fresh : ℕ) :
    Except Err PipeResult × List Event :=
  match checkParameter "rotate" order mode with
  | .error e => (.error e, [])
  | .ok _ =>
    let mode := if mode = "opencv" then "_opencv_edge" else mode
    let ndim := input.ndim
    let a0 := if axes0 < 0 then axes0 + ndim else axes0
    let a1 := if axes1 < 0 then axes1 + ndim else axes1
    let ap := if a0 > a1 then (a1, a0) else (a0, a1)
    if ap.1 < 0 ∨ (ndim : ℤ) ≤ ap.2 then (.error .invalidRotationPlane, [])
    else
      let i0 := ap.1.toNat
      let i1 := ap.2.toNat
      let iy := input.shape.getD i0 0
      let ix := input.shape.getD i1 0
      let geom := rotateGeom c s iy ix reshape
      let outputShape := (input.shape.set i0 geom.1.1.toNat).set i1 geom.1.2.toNat
      let matrixRows := setRotBlock (identRows ndim) i0 i1 c s
      let offsetL := (List.range ndim).map fun i =>
        if i = i0 then geom.2.1 else if i = i1 then geom.2.2 else 0
      affineM input (.twoD matrixRows) (.vec offsetL) (some outputShape) output
        order mode cval prefilter allowFloat32 (fresh + 1)

/-! ## Specification-side definitions

These are written from the wording of the specification / claims (not from
the source), for comparison with the source-derived definitions above. -/

/-- The in-plane output shape as claim C3 words it: the *ceiling* of the
rotated corner bounding-box extent of the input plane. -/
def specCeilPlaneShape (c s : ℚ) (iy ix : ℕ) : ℤ × ℤ :=
  (⌈rotExtent0 c s iy ix⌉, ⌈rotExtent1 c s iy ix⌉)

/-- The rotation offset exactly as claim C3 words it:
`in_center - rotation_matrix · out_center` with
`out_center = rotation_matrix · ((out_plane_shape - 1) / 2)` (so the rotation
is applied twice), `out_plane_shape` being the shape the code computes. -/
def specClaimRotOffset (c s : ℚ) (iy ix : ℕ) : ℚ × ℚ :=
  let osh := (rotateGeom c s iy ix true).1
  let h0 := ((osh.1 : ℚ) - 1) / 2
  let h1 := ((osh.2 : ℚ) - 1) / 2
  let outCenter : ℚ × ℚ := (c * h0 + s * h1, -s * h0 + c * h1)
  let inCenter : ℚ × ℚ := (((iy : ℚ) - 1) / 2, ((ix : ℚ) - 1) / 2)
  (inCenter.1 - (c * outCenter.1 + s * outCenter.2),
   inCenter.2 - (-s * outCenter.1 + c * outCenter.2))

/-- The rotation offset per the amended claim: `in_center - out_center` where
`out_center = rotation_matrix · ((out_plane_shape - 1) / 2)` is the rotated
output-plane center (the rotation applied once). -/
def specAmendedRotOffset (c s : ℚ) (iy ix : ℕ) : ℚ × ℚ :=
  let osh := (rotateGeom c s iy ix true).1
  let h0 := ((osh.1 : ℚ) - 1) / 2
  let h1 := ((osh.2 : ℚ) - 1) / 2
  let inCenter : ℚ × ℚ := (((iy : ℚ) - 1) / 2, ((ix : ℚ) - 1) / 2)
  (inCenter.1 - (c * h0 + s * h1), inCenter.2 - (-s * h0 + c * h1))

/-- Claim C4's per-axis output extents: `round(input_extent * zoom_factor)`
(Python 3 `round`, i.e. half-to-even). -/
def specZoomOutputShape (shape : List ℕ) (z : List ℚ) : List ℤ :=
  List.zipWith (fun (s : ℕ) (q : ℚ) => pyRound ((s : ℚ) * q)) shape z

/-- Claim C4's effective per-axis zoom factor:
`(input_extent - 1) / (output_extent - 1)`, forced to `0` for any axis whose
output extent is not greater than `1`. -/
def specEffectiveZoom (shape : List ℕ) (z : List ℚ) : List ℚ :=
  List.zipWith
    (fun (s : ℕ) (e : ℤ) => if 1 < e then ((s : ℚ) - 1) / ((e : ℚ) - 1) else 0)
    shape (specZoomOutputShape shape z)

/-! ## Concrete fixtures used by counterexamples and witnesses -/

/-- A 1-element float64 array. -/
def arrF1 : Arr := ⟨[1], .float64, 0, true, [0]⟩

/-- A coordinate array of shape (1, 1) for a rank-1 input. -/
def coordsF1 : Arr := ⟨[1, 1], .float64, 1, true, [0]⟩

/-- A 1×1 float64 array (rank 2, for `rotate`). -/
def arrF11 : Arr := ⟨[1, 1], .float64, 0, true, [0]⟩

/-- A rank-1 int32 array. -/
def arrI4 : Arr := ⟨[4], .int32, 0, true, [1, 2, 3, 4]⟩

/-- A coordinate array of shape (1, 2) for a rank-1 input. -/
def coordsF2 : Arr := ⟨[1, 2], .float64, 1, true, [0, 1]⟩

/-- A 2×2 float64 array. -/
def arrF22 : Arr := ⟨[2, 2], .float64, 0, true, [1, 2, 3, 4]⟩

/-- A rank-1 float64 array of length 4. -/
def arrF4 : Arr := ⟨[4], .float64, 0, true, [1, 2, 3, 4]⟩

/-- A rank-1 float64 array of length 3. -/
def arrF3 : Arr := ⟨[3], .float64, 0, true, [1, 2, 3]⟩

/-! ## Helper lemmas -/

theorem promoteTypes_float64_prec (d : DType) :
    floatPrec (promoteTypes d .float64) = 64 := by
  cases d <;> rfl

theorem promoteTypes_complex128_prec (d : DType) :
    floatPrec (promoteTypes d .complex128) = 64 := by
  cases d <;> rfl

theorem floatPrec_le_64 (d : DType) : floatPrec d ≤ 64 := by
  cases d <;> simp [floatPrec]

/-- With `allow_float32 = False`, the minimum working dtype is always a
double-precision dtype, so promotion with it lands at precision 64. -/
theorem promoteTypes_minFloat_false_prec (d : DType) (c : Bool) :
    floatPrec (promoteTypes d (minFloatDtype c false)) = 64 := by
  cases c <;>
    simp only [minFloatDtype, Bool.false_eq_true, if_false, if_true,
      promoteTypes_float64_prec, promoteTypes_complex128_prec]

/-- The workspace derived from the input never reuses the input's backing
storage: the `shares_memory` branch of `_get_spline_output` forces a private
copy whenever the astype/ascontiguousarray chain would alias it. -/
theorem deriveTemp_not_aliased (input : Arr) (d : DType) (fresh : ℕ)
    (hfresh : input.store < fresh) :
    (deriveTemp input d fresh).store ≠ input.store := by
  unfold deriveTemp
  dsimp only
  split
  · simp only [arrCopy]
    omega
  · assumption

/-! ## Claim C1 -/

/-- Claim C1, counterexample: with `allow_float32 = False`, a requested
`float64` output and an `int32` input, `map_coordinates` hands the sampling
kernel a *float32* `filtered` array (precision 32 < 64), because the integer
input is first converted to float32 and the prefilter result is stored back
at that dtype. -/
theorem C1_counterexample_int_input_filtered_float32 :
    ((mapCoordinatesM arrI4 coordsF2 (.dt .float64) 3 "mirror" 0 true false 40).1.map
      (fun pr => pr.filtered.dtype)) = .ok .float32 ∧
    floatPrec .float32 < floatPrec .float64 := by
  constructor
  · simp [mapCoordinatesM, checkParameter, validModes, getOutput, coordAdjust,
      splineFilterM, getSplineOutput, splineFilterAxes, splineFilter1dM,
      normalizeAxisIndex, arrI4, coordsF2, Arr.ndim, promoteTypes, DType.kind,
      minFloatDtype, astypeCopyFalse, astypeCopy, ascontiguous, deriveTemp,
      arrCopy, castVal, truncQ, Except.map]
  · simp [floatPrec]

/-- Claim C1 (amended): the *accumulation* dtype `float_dtype` selected by
`_get_spline_output` with `allow_float32 = False` is never of lower precision
than the requested output dtype (it is always double precision); the original
claim fails only for the materialized `filtered` array of the transform
functions, which is stored back at the (possibly converted-to-float32) input
dtype. -/
theorem C1_theorem_accumulation_precision_not_below_output
    (input : Arr) (output : OutputArg) (fresh : ℕ) (so : SplineOut)
    (h : getSplineOutput input output false fresh = .ok so) :
    floatPrec so.outputDtype ≤ floatPrec so.floatDtype := by
  unfold getSplineOutput at h
  cases output with
  | arr a =>
    dsimp only at h
    split at h
    · exact absurd h (by simp)
    · split at h <;>
      · injection h with h2
        subst h2
        simp only [promoteTypes_minFloat_false_prec]
        exact floatPrec_le_64 _
  | dt d =>
    injection h with h2
    subst h2
    simp only [promoteTypes_minFloat_false_prec]
    exact floatPrec_le_64 _
  | none =>
    injection h with h2
    subst h2
    simp only [promoteTypes_minFloat_false_prec]
    exact floatPrec_le_64 _

/-- Witness for the amended C1 theorem at a concrete input. -/
theorem C1_witness_accumulation_precision :
    getSplineOutput arrF4 (.dt .float64) false 5 =
      .ok ⟨⟨[4], .float64, 7, true, [1, 2, 3, 4]⟩, .float64, .float64⟩ ∧
    floatPrec (DType.float64) ≤ floatPrec (DType.float64) := by
  have hok : getSplineOutput arrF4 (.dt .float64) false 5 =
      .ok ⟨⟨[4], .float64, 7, true, [1, 2, 3, 4]⟩, .float64, .float64⟩ := by
    simp [getSplineOutput, arrF4, DType.kind, minFloatDtype, promoteTypes,
      deriveTemp, astypeCopyFalse, ascontiguous, arrCopy]
  exact ⟨hok, C1_theorem_accumulation_precision_not_below_output arrF4
    (.dt .float64) 5 _ hok⟩

/-! ## Claim C5 -/

theorem checkParameter_invalidOrder (f mode : String) (order : ℤ)
    (h : order < 0 ∨ 5 < order) :
    checkParameter f order mode = .error .invalidOrder := by
  simp [checkParameter, h]

theorem pyRound_one : pyRound 1 = 1 := by
  norm_num [pyRound]

theorem rotateGeom_one_zero : rotateGeom 1 0 1 1 true = ((1, 1), (0, 0)) := by
  norm_num [rotateGeom, rotExtent0, rotExtent1, rotRow0, rotRow1, rotCorners,
    listMaxQ, listMinQ, truncQ]

/-- Claim C5, counterexample: `spline_filter` rejects order 1 (its guard is
`order < 2 or order > 5`), although the claim states every integer order in
[0, 5] is accepted by every public operation. -/
theorem C5_counterexample_spline_filter_rejects_order_one :
    (splineFilterM arrF1 1 .none "mirror" true 5).1 = .error .invalidOrder := by
  simp [splineFilterM]

/-- Claim C5 (amended): every public operation rejects orders outside [0, 5]
and accepts (does not reject as an invalid order, nor clamp) every integer
order in [0, 5] — *except* `spline_filter`, which accepts exactly the orders
in [2, 5] and rejects 0 and 1 as well.  Stated at representative benign
arguments for each of the seven operations. -/
theorem C5_theorem_order_validation_per_operation (order : ℤ) :
    ((splineFilter1dM arrF1 order (-1) .none "mirror" true 5).1 = .error .invalidOrder
      ↔ (order < 0 ∨ 5 < order)) ∧
    ((splineFilterM arrF1 order .none "mirror" true 5).1 = .error .invalidOrder
      ↔ (order < 2 ∨ 5 < order)) ∧
    ((mapCoordinatesM arrF1 coordsF1 .none order "mirror" 0 false true 5).1 = .error .invalidOrder
      ↔ (order < 0 ∨ 5 < order)) ∧
    ((affineM arrF1 (.oneD [1]) (.scalar 0) none .none order "mirror" 0 false true 5).1
        = .error .invalidOrder
      ↔ (order < 0 ∨ 5 < order)) ∧
    ((shiftM arrF1 (.scalar 0) .none order "mirror" 0 false true 5).1 = .error .invalidOrder
      ↔ (order < 0 ∨ 5 < order)) ∧
    ((zoomM arrF1 (.scalar 1) .none order "mirror" 0 false true 5).1 = .error .invalidOrder
      ↔ (order < 0 ∨ 5 < order)) ∧
    ((rotateM arrF11 1 0 1 0 true .none order "mirror" 0 false true 5).1 = .error .invalidOrder
      ↔ (order < 0 ∨ 5 < order)) := by
  refine ⟨?_, ?_, ?_, ?_, ?_, ?_, ?_⟩
  · constructor
    · intro h
      by_contra hc
      push_neg at hc
      obtain ⟨h0, h5⟩ := hc
      interval_cases order <;>
        simp_all [splineFilter1dM, getOutput, normalizeAxisIndex, arrF1, Arr.ndim,
          castVal, DType.kind, getSplineOutput, minFloatDtype, promoteTypes,
          deriveTemp, astypeCopyFalse, ascontiguous, arrCopy]
    · intro h
      have h' : order < 0 ∨ order > 5 := by omega
      simp [splineFilter1dM, h']
  · constructor
    · intro h
      by_contra hc
      push_neg at hc
      obtain ⟨h0, h5⟩ := hc
      interval_cases order <;>
        simp_all [splineFilterM, splineFilterAxes, splineFilter1dM, getOutput,
          normalizeAxisIndex, arrF1, Arr.ndim, castVal, DType.kind,
          getSplineOutput, minFloatDtype, promoteTypes, deriveTemp,
          astypeCopyFalse, ascontiguous, arrCopy, List.range_succ]
    · intro h
      have h' : order < 2 ∨ order > 5 := by omega
      simp [splineFilterM, h']
  · constructor
    · intro h
      by_contra hc
      push_neg at hc
      obtain ⟨h0, h5⟩ := hc
      interval_cases order <;>
        simp_all [mapCoordinatesM, checkParameter, validModes, getOutput,
          coordAdjust, splineFilterM, getSplineOutput, splineFilterAxes,
          splineFilter1dM, normalizeAxisIndex, arrF1, coordsF1, Arr.ndim,
          promoteTypes, DType.kind, minFloatDtype, astypeCopyFalse, astypeCopy,
          ascontiguous, deriveTemp, arrCopy, castVal]
    · intro h
      simp [mapCoordinatesM, checkParameter_invalidOrder _ _ _ h]
  · constructor
    · intro h
      by_contra hc
      push_neg at hc
      obtain ⟨h0, h5⟩ := hc
      interval_cases order <;>
        simp_all [affineM, checkParameter, validModes, affineMatrixNormalize,
          getOutput, splineFilterM, getSplineOutput, splineFilterAxes,
          splineFilter1dM, normalizeAxisIndex, arrF1, Arr.ndim, promoteTypes,
          DType.kind, minFloatDtype, astypeCopyFalse, astypeCopy, ascontiguous,
          deriveTemp, arrCopy, castVal]
    · intro h
      simp [affineM, checkParameter_invalidOrder _ _ _ h]
  · constructor
    · intro h
      by_contra hc
      push_neg at hc
      obtain ⟨h0, h5⟩ := hc
      interval_cases order <;>
        simp_all [shiftM, checkParameter, validModes, getOutput, splineFilterM,
          getSplineOutput, splineFilterAxes, splineFilter1dM, normalizeAxisIndex,
          arrF1, Arr.ndim, promoteTypes, DType.kind, minFloatDtype,
          astypeCopyFalse, astypeCopy, ascontiguous, deriveTemp, arrCopy, castVal]
    · intro h
      simp [shiftM, checkParameter_invalidOrder _ _ _ h]
  · constructor
    · intro h
      by_contra hc
      push_neg at hc
      obtain ⟨h0, h5⟩ := hc
      interval_cases order <;>
        simp_all [zoomM, checkParameter, validModes, getOutput, splineFilterM,
          getSplineOutput, splineFilterAxes, splineFilter1dM, normalizeAxisIndex,
          arrF1, Arr.ndim, promoteTypes, DType.kind, minFloatDtype,
          astypeCopyFalse, astypeCopy, ascontiguous, deriveTemp, arrCopy,
          castVal, pyRound_one]
    · intro h
      simp [zoomM, checkParameter_invalidOrder _ _ _ h]
  · constructor
    · intro h
      by_contra hc
      push_neg at hc
      obtain ⟨h0, h5⟩ := hc
      interval_cases order <;>
        simp_all [rotateM, checkParameter, validModes, rotateGeom_one_zero,
          identRows, setRotBlock, setEntry, affineM, affineMatrixNormalize,
          getOutput, splineFilterM, getSplineOutput, splineFilterAxes,
          splineFilter1dM, normalizeAxisIndex, arrF11, Arr.ndim, promoteTypes,
          DType.kind, minFloatDtype, astypeCopyFalse, astypeCopy, ascontiguous,
          deriveTemp, arrCopy, castVal, List.range_succ]
    · intro h
      simp [rotateM, checkParameter_invalidOrder _ _ _ h]

/-! ## Claim C6 -/

/-- Claim C6, counterexample: for a rank-1 input, a 2-d matrix of shape
(1, 3) matches none of the accepted forms (1,1), (1,), (2,2), (1,2) — yet
`affine_transform`'s validation accepts it unchanged instead of raising the
`InvalidTransformMatrix` error ("no proper affine matrix provided"). -/
theorem C6_counterexample_mismatched_matrix_shape_accepted :
    affineMatrixNormalize 1 (.twoD [[1, 2, 3]]) [0] = .ok (.twoD [[1, 2, 3]], [0]) := by
  simp [affineMatrixNormalize]

/-- Claim C6 (amended): the `InvalidTransformMatrix` error is raised exactly
when the matrix rank is outside {1, 2}; a 2-dimensional matrix is *never*
rejected.  Any 2-d shape `(k, k+1)` — even with `k ≠ ndim` — is normalized as
an augmented matrix (offset taken from its last column, the caller's offset
ignored); otherwise any 2-d shape whose first extent is `ndim + 1` — even
non-square — is normalized as a homogeneous matrix (again ignoring the
caller's offset); every remaining 2-d shape passes through unvalidated with
the caller's offset. -/
theorem C6_theorem_matrix_normalization_characterization
    (ndim k : ℕ) (v : List ℚ) (rows : List (List ℚ)) (off : List ℚ) :
    (affineMatrixNormalize ndim (.higher k) off = .error .invalidTransformMatrix) ∧
    (affineMatrixNormalize ndim (.oneD v) off = .ok (.oneD v, off)) ∧
    (∃ m o, affineMatrixNormalize ndim (.twoD rows) off = .ok (m, o)) ∧
    ((rows.length : ℤ) = ((rows.headD []).length : ℤ) - 1 →
      affineMatrixNormalize ndim (.twoD rows) off =
        .ok (.twoD (dropLastColumn rows), lastColumn rows)) ∧
    ((rows.length : ℤ) ≠ ((rows.headD []).length : ℤ) - 1 → rows.length = ndim + 1 →
      affineMatrixNormalize ndim (.twoD rows) off =
        .ok (.twoD (dropLastColumn rows.dropLast), lastColumn rows.dropLast)) ∧
    ((rows.length : ℤ) ≠ ((rows.headD []).length : ℤ) - 1 → rows.length ≠ ndim + 1 →
      affineMatrixNormalize ndim (.twoD rows) off = .ok (.twoD rows, off)) := by
  refine ⟨rfl, rfl, ?_, ?_, ?_, ?_⟩
  · unfold affineMatrixNormalize
    dsimp only
    split_ifs <;> exact ⟨_, _, rfl⟩
  · intro h
    simp [affineMatrixNormalize, h]
  · intro h1 h2
    unfold affineMatrixNormalize
    dsimp only
    rw [if_neg h1, if_pos h2]
  · intro h1 h2
    unfold affineMatrixNormalize
    dsimp only
    rw [if_neg h1, if_neg h2]

/-- Witness for the amended C6 theorem: a homogeneous 2×2 matrix for a rank-1
input is normalized into matrix + offset with the caller's offset ignored. -/
theorem C6_witness_homogeneous_normalization :
    ((2 : ℤ) ≠ ((([[2, 3], [0, 1]] : List (List ℚ)).headD []).length : ℤ) - 1) ∧
    ([[2, 3], [0, 1]] : List (List ℚ)).length = 1 + 1 ∧
    affineMatrixNormalize 1 (.twoD [[2, 3], [0, 1]]) [9] = .ok (.twoD [[2]], [3]) := by
  refine ⟨by decide, by decide, ?_⟩
  have h := (C6_theorem_matrix_normalization_characterization 1 0 []
    [[2, 3], [0, 1]] [9]).2.2.2.2.1 (by decide) (by decide)
  simpa [dropLastColumn, lastColumn] using h

/-! ## Claim C7 -/

/-- Claim C7, counterexample: `spline_filter1d` accepts the unrecognized
boundary-mode string "bogus" and returns normally (the passthrough result),
instead of raising the `InvalidMode` error the claim requires. -/
theorem C7_counterexample_spline_filter1d_accepts_unknown_mode :
    (splineFilter1dM arrF1 0 (-1) .none "bogus" true 5).1 =
      .ok ⟨[1], .float64, 5, true, [0]⟩ := by
  simp [splineFilter1dM, getOutput, normalizeAxisIndex, arrF1, Arr.ndim,
    castVal, DType.kind]

/-- Claim C7 (amended): the boundary-mode validation (reject everything
outside the seven recognized strings, accept everything inside) holds for the
transform operations, which call `_check_parameter` — shown for
`map_coordinates` — but `spline_filter1d` and `spline_filter` perform no mode
validation at all: they return normally for *every* mode string. -/
theorem C7_theorem_mode_validation_scope (mode : String) :
    ((mapCoordinatesM arrF1 coordsF1 .none 3 mode 0 false true 5).1 = .error .invalidMode
      ↔ mode ∉ validModes) ∧
    ((splineFilter1dM arrF1 0 (-1) .none mode true 5).1 =
      .ok ⟨[1], .float64, 5, true, [0]⟩) ∧
    ((splineFilterM arrF1 3 .none mode true 5).1 =
      .ok ⟨[1], .float64, 7, true, [0]⟩) := by
  refine ⟨⟨?_, ?_⟩, ?_, ?_⟩
  · intro h
    by_contra hmem
    simp only [validModes, List.mem_cons, List.not_mem_nil, or_false] at hmem
    rcases hmem with rfl | rfl | rfl | rfl | rfl | rfl | rfl <;>
      simp_all [mapCoordinatesM, checkParameter, validModes, getOutput,
        coordAdjust, padOne, arrF1, coordsF1, Arr.ndim, promoteTypes,
        DType.kind, astypeCopyFalse, ascontiguous]
  · intro h
    simp [mapCoordinatesM, checkParameter, h]
  · simp [splineFilter1dM, getOutput, normalizeAxisIndex, arrF1, Arr.ndim,
      castVal, DType.kind]
  · simp [splineFilterM, splineFilterAxes, splineFilter1dM, getOutput,
      normalizeAxisIndex, arrF1, Arr.ndim, castVal, DType.kind, getSplineOutput,
      minFloatDtype, promoteTypes, deriveTemp, astypeCopyFalse, ascontiguous,
      arrCopy, List.range_succ]

/-! ## Claim C8 -/

/-- Claim C8, counterexample: when the caller passes the input array itself
as the output buffer (matching float dtype, C-contiguous), `_get_spline_output`
hands back the input as the workspace without any private copy, and
`spline_filter1d` then runs the in-place gain multiply and prefilter kernel
on that buffer — which shares (is) the caller's input storage. -/
theorem C8_counterexample_inplace_output_shares_input_storage :
    splineFilter1dM arrF4 3 0 (.arr arrF4) "mirror" false 9 =
      (.ok arrF4, [.gainMul, .prefilterKernel 0]) ∧
    getSplineOutput arrF4 (.arr arrF4) false 9 = .ok ⟨arrF4, .float64, .float64⟩ ∧
    sharesMemory arrF4 arrF4 := by
  refine ⟨?_, ?_, rfl⟩
  · simp [splineFilter1dM, getSplineOutput, normalizeAxisIndex, arrF4, Arr.ndim,
      promoteTypes, DType.kind, minFloatDtype, astypeCopyFalse]
  · simp [getSplineOutput, arrF4, DType.kind, minFloatDtype, promoteTypes]

/-- Claim C8 (amended): the aliasing detection holds on the
workspace-derivation path — whenever the output argument is absent or a dtype
specifier (so the workspace is derived from the input), the workspace never
shares the input's backing storage, the `shares_memory` check forcing a copy
when needed.  It does not hold when the caller's output buffer is reused as
the workspace (it may be the input itself, as the counterexample shows). -/
theorem C8_theorem_derived_workspace_never_aliases_input
    (input : Arr) (output : OutputArg) (af : Bool) (fresh : ℕ) (so : SplineOut)
    (hfresh : input.store < fresh)
    (hout : output = .none ∨ ∃ d, output = .dt d)
    (h : getSplineOutput input output af fresh = .ok so) :
    ¬ sharesMemory so.temp input := by
  rcases hout with rfl | ⟨d, rfl⟩ <;>
  · unfold getSplineOutput at h
    injection h with h2
    subst h2
    intro hs
    exact deriveTemp_not_aliased input _ fresh hfresh hs

/-- Witness for the amended C8 theorem at a concrete input. -/
theorem C8_witness_derived_workspace :
    arrF3.store < 5 ∧
    getSplineOutput arrF3 (.dt .float64) true 5 =
      .ok ⟨⟨[3], .float64, 7, true, [1, 2, 3]⟩, .float64, .float64⟩ ∧
    ¬ sharesMemory (Arr.mk [3] .float64 7 true [1, 2, 3]) arrF3 := by
  have hfresh : arrF3.store < 5 := by simp [arrF3]
  have hok : getSplineOutput arrF3 (.dt .float64) true 5 =
      .ok ⟨⟨[3], .float64, 7, true, [1, 2, 3]⟩, .float64, .float64⟩ := by
    simp [getSplineOutput, arrF3, DType.kind, minFloatDtype, promoteTypes,
      deriveTemp, astypeCopyFalse, ascontiguous, arrCopy]
  exact ⟨hfresh, hok, C8_theorem_derived_workspace_never_aliases_input arrF3
    (.dt .float64) true 5 _ hfresh (Or.inr ⟨.float64, rfl⟩) hok⟩

/-! ## Claim C9 -/

theorem getOutput_ok_shape (output : OutputArg) (input : Arr)
    (shape : Option (List ℕ)) (fresh : ℕ) (o : Arr)
    (h : getOutput output input shape fresh = .ok o) :
    o.shape = shape.getD input.shape := by
  unfold getOutput at h
  cases output with
  | arr a =>
    dsimp only at h
    split at h
    · injection h with h2
      subst h2
      assumption
    · exact absurd h (by simp)
  | dt d => injection h with h2; subst h2; rfl
  | none => injection h with h2; subst h2; rfl

/-- Claim C9: `spline_filter1d` with order < 2, or a rank-0 input, or an axis
of extent 1, performs no filtering work (no kernel events) and returns the
input values unchanged, cast to the requested output dtype, at the input's
shape. -/
theorem C9_theorem_spline_filter1d_passthrough
    (input : Arr) (order axis : ℤ) (output : OutputArg) (mode : String)
    (af : Bool) (fresh : ℕ) (out : Arr) (evs : List Event)
    (hcase : order < 2 ∨ input.ndim = 0 ∨
      input.shape.getD (normalizeAxisIndex axis input.ndim) 1 = 1)
    (hok : splineFilter1dM input order axis output mode af fresh = (.ok out, evs)) :
    out.shape = input.shape ∧ out.vals = input.vals.map (castVal out.dtype) ∧
      evs = [] := by
  unfold splineFilter1dM at hok
  split at hok
  · exact absurd hok (by simp)
  · rw [if_pos hcase] at hok
    split at hok
    · exact absurd hok (by simp)
    · next o ho =>
      rw [Prod.mk.injEq] at hok
      obtain ⟨h1, h2⟩ := hok
      injection h1 with h1
      subst h1
      refine ⟨getOutput_ok_shape output input none fresh o ho, rfl, h2.symm⟩

/-- Witness for claim C9's passthrough theorem at order 1. -/
theorem C9_witness_passthrough :
    ((1 : ℤ) < 2 ∨ arrF3.ndim = 0 ∨
      arrF3.shape.getD (normalizeAxisIndex (-1) arrF3.ndim) 1 = 1) ∧
    splineFilter1dM arrF3 1 (-1) .none "mirror" true 5 =
      (.ok ⟨[3], .float64, 5, true, [1, 2, 3]⟩, []) ∧
    (Arr.mk [3] .float64 5 true [1, 2, 3]).shape = arrF3.shape ∧
    (Arr.mk [3] .float64 5 true [1, 2, 3]).vals =
      arrF3.vals.map (castVal (Arr.mk [3] .float64 5 true [1, 2, 3]).dtype) ∧
    ([] : List Event) = [] := by
  have hcase : (1 : ℤ) < 2 ∨ arrF3.ndim = 0 ∨
      arrF3.shape.getD (normalizeAxisIndex (-1) arrF3.ndim) 1 = 1 := Or.inl (by norm_num)
  have hok : splineFilter1dM arrF3 1 (-1) .none "mirror" true 5 =
      (.ok ⟨[3], .float64, 5, true, [1, 2, 3]⟩, []) := by
    simp [splineFilter1dM, getOutput, normalizeAxisIndex, arrF3, Arr.ndim,
      castVal, DType.kind]
  obtain ⟨ha, hb, hc⟩ := C9_theorem_spline_filter1d_passthrough arrF3 1 (-1)
    .none "mirror" true 5 _ _ hcase hok
  exact ⟨hcase, hok, ha, hb, hc⟩

/-! ## Claim C2 -/

theorem splineFilter1dM_events_nonsampling (input : Arr) (order axis : ℤ)
    (output : OutputArg) (mode : String) (af : Bool) (fresh : ℕ) :
    ∀ ev ∈ (splineFilter1dM input order axis output mode af fresh).2,
      ev.isSampling = false := by
  intro ev hev
  unfold splineFilter1dM at hev
  by_cases h1 : order < 0 ∨ order > 5
  · rw [if_pos h1] at hev
    simp at hev
  · rw [if_neg h1] at hev
    by_cases h2 : order < 2 ∨ input.ndim = 0 ∨
        input.shape.getD (normalizeAxisIndex axis input.ndim) 1 = 1
    · rw [if_pos h2] at hev
      cases hg : getOutput output input none fresh with
      | error e => rw [hg] at hev; simp at hev
      | ok o => rw [hg] at hev; simp at hev
    · rw [if_neg h2] at hev
      cases hs : getSplineOutput input output af fresh with
      | error e => rw [hs] at hev; simp at hev
      | ok so =>
        rw [hs] at hev
        cases output with
        | arr a =>
          dsimp only at hev
          by_cases h3 : so.temp = a
          · rw [if_pos h3] at hev
            simp at hev
            rcases hev with rfl | rfl <;> rfl
          · rw [if_neg h3] at hev
            simp at hev
            rcases hev with rfl | rfl <;> rfl
        | dt d =>
          simp at hev
          rcases hev with rfl | rfl <;> rfl
        | none =>
          simp at hev
          rcases hev with rfl | rfl <;> rfl

theorem splineFilterAxes_events_nonsampling (order : ℤ) (mode : String)
    (af : Bool) (fresh : ℕ) (axes : List ℕ) (x temp : Arr) :
    ∀ ev ∈ (splineFilterAxes order mode af fresh axes x temp).2,
      ev.isSampling = false := by
  induction axes generalizing x temp with
  | nil => simp [splineFilterAxes]
  | cons ax rest ih =>
    intro ev hev
    unfold splineFilterAxes at hev
    cases h1 : splineFilter1dM x order (ax : ℤ) (.arr temp) mode af fresh with
    | mk r evs =>
      rw [h1] at hev
      cases r with
      | error e =>
        dsimp only at hev
        exact splineFilter1dM_events_nonsampling x order ax (.arr temp) mode af fresh ev
          (by rw [h1]; exact hev)
      | ok t2 =>
        dsimp only at hev
        rcases List.mem_append.mp hev with hl | hr
        · exact splineFilter1dM_events_nonsampling x order ax (.arr temp) mode af fresh ev
            (by rw [h1]; exact hl)
        · exact ih t2 t2 ev hr

theorem splineFilterM_events_nonsampling (input : Arr) (order : ℤ)
    (output : OutputArg) (mode : String) (af : Bool) (fresh : ℕ) :
    ∀ ev ∈ (splineFilterM input order output mode af fresh).2,
      ev.isSampling = false := by
  intro ev hev
  unfold splineFilterM at hev
  by_cases h1 : order < 2 ∨ order > 5
  · rw [if_pos h1] at hev
    simp at hev
  · rw [if_neg h1] at hev
    cases hs : getSplineOutput input output af fresh with
    | error e => rw [hs] at hev; simp at hev
    | ok so =>
      rw [hs] at hev
      dsimp only at hev
      by_cases h2 : ¬(order = 0 ∨ order = 1) ∧ input.ndim > 0
      · rw [if_pos h2] at hev
        cases hx : splineFilterAxes order mode af (fresh + 10)
            (List.range input.ndim) input so.temp with
        | mk r evs2 =>
          rw [hx] at hev
          cases r <;>
          · dsimp only at hev
            exact splineFilterAxes_events_nonsampling order mode af (fresh + 10)
              (List.range input.ndim) input so.temp ev (by rw [hx]; exact hev)
      · rw [if_neg h2] at hev
        simp at hev

theorem affineM_error_nonsampling (input : Arr) (matrix : MatrixArg)
    (offset : OffsetArg) (outputShape : Option (List ℕ)) (output : OutputArg)
    (order : ℤ) (mode : String) (cval : ℚ) (prefilter af : Bool) (fresh : ℕ)
    (err : Err) (evs : List Event)
    (hA : affineM input matrix offset outputShape output order mode cval prefilter af fresh
      = (.error err, evs)) : ∀ ev ∈ evs, ev.isSampling = false := by
  intro ev hev
  unfold affineM at hA
  cases hc : checkParameter "affine_transform" order mode with
  | error e =>
    rw [hc] at hA
    rw [Prod.mk.injEq] at hA
    rw [← hA.2] at hev
    simp at hev
  | ok u =>
    rw [hc] at hA
    dsimp only at hA
    generalize (match offset with
      | OffsetArg.scalar q => List.replicate input.ndim q
      | OffsetArg.vec l => l) = offsetL at hA
    cases hn : affineMatrixNormalize input.ndim matrix offsetL with
    | error e =>
      rw [hn] at hA
      rw [Prod.mk.injEq] at hA
      rw [← hA.2] at hev
      simp at hev
    | ok mo0 =>
      rw [hn] at hA
      dsimp only at hA
      cases hg : getOutput output input (some (outputShape.getD input.shape)) (fresh + 1) with
      | error e =>
        rw [hg] at hA
        rw [Prod.mk.injEq] at hA
        rw [← hA.2] at hev
        simp at hev
      | ok outArr =>
        rw [hg] at hA
        dsimp only at hA
        generalize (if input.dtype.kind = 'i' ∨ input.dtype.kind = 'u'
          then astypeCopy input DType.float32 (fresh + 2) else input) = input2 at hA
        generalize hmo : (if mode = "opencv"
          then opencvAffineAdjust input.ndim mo0.1 mo0.2 else mo0) = mo at hA
        obtain ⟨m, oL⟩ := mo
        by_cases hp : (prefilter = true) ∧ order > 1
        · rw [if_pos hp] at hA
          cases hsf : splineFilterM input2 order (.dt input2.dtype) mode af (fresh + 4) with
          | mk r evs2 =>
            rw [hsf] at hA
            cases r with
            | error e =>
              dsimp only at hA
              rw [Prod.mk.injEq] at hA
              rw [← hA.2] at hev
              exact splineFilterM_events_nonsampling _ _ _ _ _ _ ev (by rw [hsf]; exact hev)
            | ok filtered =>
              dsimp only at hA
              cases m with
              | oneD v => exact absurd (congrArg Prod.fst hA) (by simp)
              | twoD rows => exact absurd (congrArg Prod.fst hA) (by simp)
              | higher n =>
                rw [Prod.mk.injEq] at hA
                rw [← hA.2] at hev
                exact splineFilterM_events_nonsampling _ _ _ _ _ _ ev (by rw [hsf]; exact hev)
        · rw [if_neg hp] at hA
          dsimp only at hA
          cases m with
          | oneD v => exact absurd (congrArg Prod.fst hA) (by simp)
          | twoD rows => exact absurd (congrArg Prod.fst hA) (by simp)
          | higher n =>
            rw [Prod.mk.injEq] at hA
            rw [← hA.2] at hev
            simp at hev

theorem shiftM_error_nonsampling (input : Arr) (shiftArg : VecArg)
    (output : OutputArg) (order : ℤ) (mode : String) (cval : ℚ)
    (prefilter af : Bool) (fresh : ℕ) (err : Err) (evs : List Event)
    (hA : shiftM input shiftArg output order mode cval prefilter af fresh
      = (.error err, evs)) : ∀ ev ∈ evs, ev.isSampling = false := by
  intro ev hev
  unfold shiftM at hA
  cases hc : checkParameter "shift" order mode with
  | error e =>
    rw [hc] at hA
    rw [Prod.mk.injEq] at hA
    rw [← hA.2] at hev
    simp at hev
  | ok u =>
    rw [hc] at hA
    dsimp only at hA
    generalize (match shiftArg with
      | VecArg.scalar q => VecArg.array [input.ndim] (List.replicate input.ndim q)
      | a => a) = sArg at hA
    by_cases hoc : mode = "opencv"
    · rw [if_pos hoc] at hA
      exact affineM_error_nonsampling _ _ _ _ _ _ _ _ _ _ _ _ _ hA ev hev
    · rw [if_neg hoc] at hA
      cases hg : getOutput output input none (fresh + 1) with
      | error e =>
        rw [hg] at hA
        rw [Prod.mk.injEq] at hA
        rw [← hA.2] at hev
        simp at hev
      | ok outArr =>
        rw [hg] at hA
        dsimp only at hA
        generalize (if input.dtype.kind = 'i' ∨ input.dtype.kind = 'u'
          then astypeCopy input DType.float32 (fresh + 2) else input) = input2 at hA
        by_cases hp : (prefilter = true) ∧ order > 1
        · rw [if_pos hp] at hA
          cases hsf : splineFilterM input2 order (.dt input2.dtype) mode af (fresh + 4) with
          | mk r evs2 =>
            rw [hsf] at hA
            cases r with
            | error e =>
              dsimp only at hA
              rw [Prod.mk.injEq] at hA
              rw [← hA.2] at hev
              exact splineFilterM_events_nonsampling _ _ _ _ _ _ ev (by rw [hsf]; exact hev)
            | ok filtered =>
              dsimp only at hA
              cases sArg with
              | scalar q =>
                dsimp only at hA
                rw [Prod.mk.injEq] at hA
                rw [← hA.2] at hev
                exact splineFilterM_events_nonsampling _ _ _ _ _ _ ev (by rw [hsf]; exact hev)
              | array shp vs =>
                dsimp only at hA
                by_cases hs1 : shp.length ≠ 1
                · rw [if_pos hs1] at hA
                  rw [Prod.mk.injEq] at hA
                  rw [← hA.2] at hev
                  exact splineFilterM_events_nonsampling _ _ _ _ _ _ ev (by rw [hsf]; exact hev)
                · rw [if_neg hs1] at hA
                  by_cases hs2 : shp.prod ≠ (ascontiguous filtered (fresh + 30)).ndim
                  · rw [if_pos hs2] at hA
                    rw [Prod.mk.injEq] at hA
                    rw [← hA.2] at hev
                    exact splineFilterM_events_nonsampling _ _ _ _ _ _ ev (by rw [hsf]; exact hev)
                  · rw [if_neg hs2] at hA
                    exact absurd (congrArg Prod.fst hA) (by simp)
        · rw [if_neg hp] at hA
          dsimp only at hA
          cases sArg with
          | scalar q =>
            dsimp only at hA
            rw [Prod.mk.injEq] at hA
            rw [← hA.2] at hev
            simp at hev
          | array shp vs =>
            dsimp only at hA
            by_cases hs1 : shp.length ≠ 1
            · rw [if_pos hs1] at hA
              rw [Prod.mk.injEq] at hA
              rw [← hA.2] at hev
              simp at hev
            · rw [if_neg hs1] at hA
              by_cases hs2 : shp.prod ≠ (ascontiguous input2 (fresh + 30)).ndim
              · rw [if_pos hs2] at hA
                rw [Prod.mk.injEq] at hA
                rw [← hA.2] at hev
                simp at hev
              · rw [if_neg hs2] at hA
                exact absurd (congrArg Prod.fst hA) (by simp)

theorem zoomM_error_nonsampling (input : Arr) (zoomArg : VecArg)
    (output : OutputArg) (order : ℤ) (mode : String) (cval : ℚ)
    (prefilter af : Bool) (fresh : ℕ) (err : Err) (evs : List Event)
    (hA : zoomM input zoomArg output order mode cval prefilter af fresh
      = (.error err, evs)) : ∀ ev ∈ evs, ev.isSampling = false := by
  intro ev hev
  unfold zoomM at hA
  cases hc : checkParameter "zoom" order mode with
  | error e =>
    rw [hc] at hA
    rw [Prod.mk.injEq] at hA
    rw [← hA.2] at hev
    simp at hev
  | ok u =>
    rw [hc] at hA
    dsimp only at hA
    generalize (match zoomArg with
      | VecArg.scalar q => some (List.replicate input.ndim q)
      | VecArg.array shp vs => if shp.length = 1 then some vs else none) = zl0 at hA
    cases zl0 with
    | none =>
      rw [Prod.mk.injEq] at hA
      rw [← hA.2] at hev
      simp at hev
    | some zl =>
      dsimp only at hA
      by_cases hoc : mode = "opencv"
      · rw [if_pos hoc] at hA
        exact affineM_error_nonsampling _ _ _ _ _ _ _ _ _ _ _ _ _ hA ev hev
      · rw [if_neg hoc] at hA
        cases hg : getOutput output input
            (some (List.zipWith (fun (s : ℕ) (z : ℚ) => (pyRound ((s : ℚ) * z)).toNat)
              input.shape zl)) (fresh + 1) with
        | error e =>
          rw [hg] at hA
          rw [Prod.mk.injEq] at hA
          rw [← hA.2] at hev
          simp at hev
        | ok outArr =>
          rw [hg] at hA
          dsimp only at hA
          generalize (if input.dtype.kind = 'i' ∨ input.dtype.kind = 'u'
            then astypeCopy input DType.float32 (fresh + 2) else input) = input2 at hA
          by_cases hp : (prefilter = true) ∧ order > 1
          · rw [if_pos hp] at hA
            cases hsf : splineFilterM input2 order (.dt input2.dtype) mode af (fresh + 4) with
            | mk r evs2 =>
              rw [hsf] at hA
              cases r with
              | error e =>
                dsimp only at hA
                rw [Prod.mk.injEq] at hA
                rw [← hA.2] at hev
                exact splineFilterM_events_nonsampling _ _ _ _ _ _ ev (by rw [hsf]; exact hev)
              | ok filtered =>
                dsimp only at hA
                split at hA
                · rw [Prod.mk.injEq] at hA
                  rw [← hA.2] at hev
                  exact splineFilterM_events_nonsampling _ _ _ _ _ _ ev (by rw [hsf]; exact hev)
                · exact absurd (congrArg Prod.fst hA) (by simp)
          · rw [if_neg hp] at hA
            dsimp only at hA
            split at hA
            · rw [Prod.mk.injEq] at hA
              rw [← hA.2] at hev
              simp at hev
            · exact absurd (congrArg Prod.fst hA) (by simp)

/-- Claim C2, counterexample: `shift` with order 3, `prefilter=True` and a
2-dimensional shift array raises the `InvalidParameterShape` error only
*after* the spline prefilter kernels have run along both axes (the trace
already holds the gain writes and both prefilter launches). -/
theorem C2_counterexample_shift_vector_checked_after_prefilter :
    shiftM arrF22 (.array [2, 1] [1, 0]) .none 3 "mirror" 0 true true 20 =
      (.error .invalidParameterShape,
       [.gainMul, .prefilterKernel 0, .gainMul, .prefilterKernel 1]) ∧
    Event.prefilterKernel 0 ∈
      (shiftM arrF22 (.array [2, 1] [1, 0]) .none 3 "mirror" 0 true true 20).2 := by
  have h : shiftM arrF22 (.array [2, 1] [1, 0]) .none 3 "mirror" 0 true true 20 =
      (.error .invalidParameterShape,
       [.gainMul, .prefilterKernel 0, .gainMul, .prefilterKernel 1]) := by
    simp [shiftM, checkParameter, validModes, getOutput, splineFilterM,
      getSplineOutput, splineFilterAxes, splineFilter1dM, normalizeAxisIndex,
      arrF22, Arr.ndim, promoteTypes, DType.kind, minFloatDtype, astypeCopyFalse,
      astypeCopy, ascontiguous, deriveTemp, arrCopy, castVal, truncQ,
      List.range_succ]
  exact ⟨h, by rw [h]; simp⟩

/-- Claim C2 (amended): every validation error of `shift` and `zoom` is still
reported before any *sampling* (interpolation) kernel runs — an error result
implies the trace holds no sampling-kernel event — but, contrary to the
original claim, the shift/zoom vector-shape checks run only after the spline
prefilter: with order > 1 and `prefilter=True` a malformed vector raises
after the prefilter kernels have executed (see the counterexample). -/
theorem C2_theorem_no_sampling_kernel_after_validation_error
    (input : Arr) (v : VecArg) (output : OutputArg) (order : ℤ) (mode : String)
    (cval : ℚ) (prefilter af : Bool) (fresh : ℕ) (err : Err) :
    ((shiftM input v output order mode cval prefilter af fresh).1 = .error err →
      ∀ ev ∈ (shiftM input v output order mode cval prefilter af fresh).2,
        ev.isSampling = false) ∧
    ((zoomM input v output order mode cval prefilter af fresh).1 = .error err →
      ∀ ev ∈ (zoomM input v output order mode cval prefilter af fresh).2,
        ev.isSampling = false) := by
  constructor
  · intro h
    have hA := (Prod.mk.eta
      (p := shiftM input v output order mode cval prefilter af fresh)).symm
    rw [h] at hA
    exact shiftM_error_nonsampling _ _ _ _ _ _ _ _ _ _ _ hA
  · intro h
    have hA := (Prod.mk.eta
      (p := zoomM input v output order mode cval prefilter af fresh)).symm
    rw [h] at hA
    exact zoomM_error_nonsampling _ _ _ _ _ _ _ _ _ _ _ hA

/-- Witness for the amended C2 theorem at the concrete failing shift call. -/
theorem C2_witness_no_sampling_kernel :
    (shiftM arrF22 (.array [2, 1] [1, 0]) .none 3 "mirror" 0 true true 20).1 =
      .error .invalidParameterShape ∧
    (∀ ev ∈ (shiftM arrF22 (.array [2, 1] [1, 0]) .none 3 "mirror" 0 true true 20).2,
      ev.isSampling = false) := by
  have h : (shiftM arrF22 (.array [2, 1] [1, 0]) .none 3 "mirror" 0 true true 20).1 =
      .error .invalidParameterShape := by
    simp [shiftM, checkParameter, validModes, getOutput, splineFilterM,
      getSplineOutput, splineFilterAxes, splineFilter1dM, normalizeAxisIndex,
      arrF22, Arr.ndim, promoteTypes, DType.kind, minFloatDtype, astypeCopyFalse,
      astypeCopy, ascontiguous, deriveTemp, arrCopy, castVal, truncQ,
      List.range_succ]
  exact ⟨h, (C2_theorem_no_sampling_kernel_after_validation_error arrF22
    (.array [2, 1] [1, 0]) .none 3 "mirror" 0 true true 20 .invalidParameterShape).1 h⟩

/-! ## Claim C10 -/

theorem ascontiguous_dtype (a : Arr) (n : ℕ) : (ascontiguous a n).dtype = a.dtype := by
  unfold ascontiguous
  split <;> rfl

theorem astypeCopy_dtype (a : Arr) (d : DType) (n : ℕ) :
    (astypeCopy a d n).dtype = d := rfl

theorem splineFilterM_ok_dtype (input : Arr) (order : ℤ) (d : DType)
    (mode : String) (af : Bool) (fresh : ℕ) (out : Arr) (evs : List Event)
    (h : splineFilterM input order (.dt d) mode af fresh = (.ok out, evs)) :
    out.dtype = d := by
  unfold splineFilterM at h
  by_cases h1 : order < 2 ∨ order > 5
  · rw [if_pos h1] at h
    exact absurd (congrArg Prod.fst h) (by simp)
  · rw [if_neg h1] at h
    simp only [getSplineOutput] at h
    by_cases h2 : ¬(order = 0 ∨ order = 1) ∧ input.ndim > 0
    · rw [if_pos h2] at h
      split at h
      · exact absurd (congrArg Prod.fst h) (by simp)
      · next temp evs2 heq =>
        by_cases h3 : temp.dtype ≠ d
        · rw [if_pos h3] at h
          rw [Prod.mk.injEq] at h
          injection h.1 with h4
          rw [← h4]
          rfl
        · rw [if_neg h3] at h
          rw [Prod.mk.injEq] at h
          injection h.1 with h4
          rw [← h4]
          rw [not_not] at h3
          exact h3
    · rw [if_neg h2] at h
      dsimp only at h
      by_cases h3 : (deriveTemp input
          (promoteTypes d (minFloatDtype (input.dtype.kind = 'c') af)) fresh).dtype ≠ d
      · rw [if_pos h3] at h
        rw [Prod.mk.injEq] at h
        injection h.1 with h4
        rw [← h4]
        rfl
      · rw [if_neg h3] at h
        rw [Prod.mk.injEq] at h
        injection h.1 with h4
        rw [← h4]
        rw [not_not] at h3
        exact h3

theorem padOne_dtype (a : Arr) (n : ℕ) : (padOne a n).dtype = a.dtype := rfl

theorem mapCoordinatesM_filtered_dtype (input coordinates : Arr)
    (output : OutputArg) (order : ℤ) (mode : String) (cval : ℚ)
    (prefilter af : Bool) (fresh : ℕ) (pr : PipeResult) (evs : List Event)
    (hkind : input.dtype.kind = 'i' ∨ input.dtype.kind = 'u')
    (h : mapCoordinatesM input coordinates output order mode cval prefilter af fresh
      = (.ok pr, evs)) :
    pr.filtered.dtype = .float32 := by
  unfold mapCoordinatesM at h
  cases hc : checkParameter "map_coordinates" order mode with
  | error e =>
    rw [hc] at h
    exact absurd (congrArg Prod.fst h) (by simp)
  | ok u =>
    rw [hc] at h
    dsimp only at h
    by_cases hoc : mode = "opencv" ∨ mode = "_opencv_edge" <;>
      [rw [if_pos hoc] at h; rw [if_neg hoc] at h] <;>
    · dsimp only at h
      split at h
      · exact absurd (congrArg Prod.fst h) (by simp)
      · next ret hret =>
        first
        | rw [if_pos (show (padOne input fresh).dtype.kind = 'i' ∨
              (padOne input fresh).dtype.kind = 'u' from hkind)] at h
        | rw [if_pos hkind] at h
        split at h
        · exact absurd (congrArg Prod.fst h) (by simp)
        · next c2 hc2 =>
          by_cases hp : (prefilter = true) ∧ order > 1
          · rw [if_pos hp] at h
            split at h
            · exact absurd (congrArg Prod.fst h) (by simp)
            · next filtered evs2 hsf =>
              rw [Prod.mk.injEq] at h
              injection h.1 with h4
              rw [← h4]
              dsimp only
              rw [ascontiguous_dtype]
              exact splineFilterM_ok_dtype _ _ _ _ _ _ _ _ hsf
          · rw [if_neg hp] at h
            dsimp only at h
            rw [Prod.mk.injEq] at h
            injection h.1 with h4
            rw [← h4]
            dsimp only
            rw [ascontiguous_dtype]
            rfl

theorem affineM_filtered_dtype (input : Arr) (matrix : MatrixArg)
    (offset : OffsetArg) (outputShape : Option (List ℕ)) (output : OutputArg)
    (order : ℤ) (mode : String) (cval : ℚ) (prefilter af : Bool) (fresh : ℕ)
    (pr : PipeResult) (evs : List Event)
    (hkind : input.dtype.kind = 'i' ∨ input.dtype.kind = 'u')
    (h : affineM input matrix offset outputShape output order mode cval prefilter af fresh
      = (.ok pr, evs)) :
    pr.filtered.dtype = .float32 := by
  unfold affineM at h
  cases hc : checkParameter "affine_transform" order mode with
  | error e =>
    rw [hc] at h
    exact absurd (congrArg Prod.fst h) (by simp)
  | ok u =>
    rw [hc] at h
    dsimp only at h
    generalize (match offset with
      | OffsetArg.scalar q => List.replicate input.ndim q
      | OffsetArg.vec l => l) = offsetL at h
    cases hn : affineMatrixNormalize input.ndim matrix offsetL with
    | error e =>
      rw [hn] at h
      exact absurd (congrArg Prod.fst h) (by simp)
    | ok mo0 =>
      rw [hn] at h
      dsimp only at h
      split at h
      · exact absurd (congrArg Prod.fst h) (by simp)
      · next outArr hg =>
        rw [if_pos hkind] at h
        generalize hmo : (if mode = "opencv"
          then opencvAffineAdjust input.ndim mo0.1 mo0.2 else mo0) = mo at h
        obtain ⟨m, oL⟩ := mo
        by_cases hp : (prefilter = true) ∧ order > 1
        · rw [if_pos hp] at h
          split at h
          · exact absurd (congrArg Prod.fst h) (by simp)
          · next filtered evs2 hsf =>
            cases m with
            | oneD v =>
              rw [Prod.mk.injEq] at h
              injection h.1 with h4
              rw [← h4]
              dsimp only
              rw [ascontiguous_dtype]
              exact splineFilterM_ok_dtype _ _ _ _ _ _ _ _ hsf
            | twoD rows =>
              rw [Prod.mk.injEq] at h
              injection h.1 with h4
              rw [← h4]
              dsimp only
              rw [ascontiguous_dtype]
              exact splineFilterM_ok_dtype _ _ _ _ _ _ _ _ hsf
            | higher n => exact absurd (congrArg Prod.fst h) (by simp)
        · rw [if_neg hp] at h
          dsimp only at h
          cases m with
          | oneD v =>
            rw [Prod.mk.injEq] at h
            injection h.1 with h4
            rw [← h4]
            dsimp only
            rw [ascontiguous_dtype]
            rfl
          | twoD rows =>
            rw [Prod.mk.injEq] at h
            injection h.1 with h4
            rw [← h4]
            dsimp only
            rw [ascontiguous_dtype]
            rfl
          | higher n => exact absurd (congrArg Prod.fst h) (by simp)

theorem shiftM_filtered_dtype (input : Arr) (v : VecArg) (output : OutputArg)
    (order : ℤ) (mode : String) (cval : ℚ) (prefilter af : Bool) (fresh : ℕ)
    (pr : PipeResult) (evs : List Event)
    (hkind : input.dtype.kind = 'i' ∨ input.dtype.kind = 'u')
    (hoc : mode ≠ "opencv")
    (h : shiftM input v output order mode cval prefilter af fresh = (.ok pr, evs)) :
    pr.filtered.dtype = .float32 := by
  unfold shiftM at h
  cases hc : checkParameter "shift" order mode with
  | error e =>
    rw [hc] at h
    exact absurd (congrArg Prod.fst h) (by simp)
  | ok u =>
    rw [hc] at h
    dsimp only at h
    generalize (match v with
      | VecArg.scalar q => VecArg.array [input.ndim] (List.replicate input.ndim q)
      | a => a) = sArg at h
    rw [if_neg hoc] at h
    split at h
    · exact absurd (congrArg Prod.fst h) (by simp)
    · next outArr hg =>
      rw [if_pos hkind] at h
      by_cases hp : (prefilter = true) ∧ order > 1
      · rw [if_pos hp] at h
        split at h
        · exact absurd (congrArg Prod.fst h) (by simp)
        · next filtered evs2 hsf =>
          cases sArg with
          | scalar q => exact absurd (congrArg Prod.fst h) (by simp)
          | array shp vs =>
            dsimp only at h
            by_cases hs1 : shp.length ≠ 1
            · rw [if_pos hs1] at h
              exact absurd (congrArg Prod.fst h) (by simp)
            · rw [if_neg hs1] at h
              by_cases hs2 : shp.prod ≠ (ascontiguous filtered (fresh + 30)).ndim
              · rw [if_pos hs2] at h
                exact absurd (congrArg Prod.fst h) (by simp)
              · rw [if_neg hs2] at h
                rw [Prod.mk.injEq] at h
                injection h.1 with h4
                rw [← h4]
                dsimp only
                rw [ascontiguous_dtype]
                exact splineFilterM_ok_dtype _ _ _ _ _ _ _ _ hsf
      · rw [if_neg hp] at h
        dsimp only at h
        cases sArg with
        | scalar q => exact absurd (congrArg Prod.fst h) (by simp)
        | array shp vs =>
          dsimp only at h
          by_cases hs1 : shp.length ≠ 1
          · rw [if_pos hs1] at h
            exact absurd (congrArg Prod.fst h) (by simp)
          · rw [if_neg hs1] at h
            by_cases hs2 : shp.prod ≠
                (ascontiguous (astypeCopy input DType.float32 (fresh + 2)) (fresh + 30)).ndim
            · rw [if_pos hs2] at h
              exact absurd (congrArg Prod.fst h) (by simp)
            · rw [if_neg hs2] at h
              rw [Prod.mk.injEq] at h
              injection h.1 with h4
              rw [← h4]
              dsimp only
              rw [ascontiguous_dtype]
              rfl

theorem zoomM_filtered_dtype (input : Arr) (v : VecArg) (output : OutputArg)
    (order : ℤ) (mode : String) (cval : ℚ) (prefilter af : Bool) (fresh : ℕ)
    (pr : PipeResult) (evs : List Event)
    (hkind : input.dtype.kind = 'i' ∨ input.dtype.kind = 'u')
    (hoc : mode ≠ "opencv")
    (h : zoomM input v output order mode cval prefilter af fresh = (.ok pr, evs)) :
    pr.filtered.dtype = .float32 := by
  unfold zoomM at h
  cases hc : checkParameter "zoom" order mode with
  | error e =>
    rw [hc] at h
    exact absurd (congrArg Prod.fst h) (by simp)
  | ok u =>
    rw [hc] at h
    dsimp only at h
    generalize (match v with
      | VecArg.scalar q => some (List.replicate input.ndim q)
      | VecArg.array shp vs => if shp.length = 1 then some vs else none) = zl0 at h
    cases zl0 with
    | none => exact absurd (congrArg Prod.fst h) (by simp)
    | some zl =>
      dsimp only at h
      rw [if_neg hoc] at h
      split at h
      · exact absurd (congrArg Prod.fst h) (by simp)
      · next outArr hg =>
        rw [if_pos hkind] at h
        by_cases hp : (prefilter = true) ∧ order > 1
        · rw [if_pos hp] at h
          split at h
          · exact absurd (congrArg Prod.fst h) (by simp)
          · next filtered evs2 hsf =>
            split at h
            · exact absurd (congrArg Prod.fst h) (by simp)
            · rw [Prod.mk.injEq] at h
              injection h.1 with h4
              rw [← h4]
              dsimp only
              rw [ascontiguous_dtype]
              exact splineFilterM_ok_dtype _ _ _ _ _ _ _ _ hsf
        · rw [if_neg hp] at h
          dsimp only at h
          split at h
          · exact absurd (congrArg Prod.fst h) (by simp)
          · rw [Prod.mk.injEq] at h
            injection h.1 with h4
            rw [← h4]
            dsimp only
            rw [ascontiguous_dtype]
            rfl

/-- Claim C10: for `map_coordinates`, `affine_transform`, and the
non-opencv paths of `shift` and `zoom`, an input of integer or
unsigned-integer dtype is always converted to float32 before prefiltering
and interpolation: whenever the call succeeds, the `filtered` array handed
to the sampling kernel has dtype float32 — for *both* values of
`allow_float32`, which plays no role in this conversion (it is universally
quantified here along with the other parameters). -/
theorem C10_theorem_integer_input_converted_float32
    (input : Arr) (output : OutputArg) (order : ℤ) (mode : String) (cval : ℚ)
    (prefilter af : Bool) (fresh : ℕ)
    (hkind : input.dtype.kind = 'i' ∨ input.dtype.kind = 'u') :
    (∀ coordinates pr evs,
      mapCoordinatesM input coordinates output order mode cval prefilter af fresh
        = (.ok pr, evs) → pr.filtered.dtype = .float32) ∧
    (∀ matrix offset outputShape pr evs,
      affineM input matrix offset outputShape output order mode cval prefilter af fresh
        = (.ok pr, evs) → pr.filtered.dtype = .float32) ∧
    (mode ≠ "opencv" → ∀ v pr evs,
      shiftM input v output order mode cval prefilter af fresh
        = (.ok pr, evs) → pr.filtered.dtype = .float32) ∧
    (mode ≠ "opencv" → ∀ v pr evs,
      zoomM input v output order mode cval prefilter af fresh
        = (.ok pr, evs) → pr.filtered.dtype = .float32) :=
  ⟨fun coordinates pr evs h =>
    mapCoordinatesM_filtered_dtype input coordinates output order mode cval
      prefilter af fresh pr evs hkind h,
   fun matrix offset outputShape pr evs h =>
    affineM_filtered_dtype input matrix offset outputShape output order mode
      cval prefilter af fresh pr evs hkind h,
   fun hoc v pr evs h =>
    shiftM_filtered_dtype input v output order mode cval prefilter af fresh
      pr evs hkind hoc h,
   fun hoc v pr evs h =>
    zoomM_filtered_dtype input v output order mode cval prefilter af fresh
      pr evs hkind hoc h⟩

/-- Witness for the C10 theorem at a concrete int32 input (with
`allow_float32 = False`, underlining that the flag does not prevent the
float32 conversion). -/
theorem C10_witness_integer_input :
    (arrI4.dtype.kind = 'i' ∨ arrI4.dtype.kind = 'u') ∧
    mapCoordinatesM arrI4 coordsF2 (.dt .float64) 3 "mirror" 0 true false 40 =
      (.ok ⟨⟨[2], .float64, 41, true, [0, 0]⟩, ⟨[4], .float32, 64, true, [1, 2, 3, 4]⟩⟩,
       [.gainMul, .prefilterKernel 0, .mapKernel]) ∧
    (Arr.mk [4] .float32 64 true [1, 2, 3, 4]).dtype = .float32 := by
  have hkind : arrI4.dtype.kind = 'i' ∨ arrI4.dtype.kind = 'u' := Or.inl rfl
  have hok : mapCoordinatesM arrI4 coordsF2 (.dt .float64) 3 "mirror" 0 true false 40 =
      (.ok ⟨⟨[2], .float64, 41, true, [0, 0]⟩, ⟨[4], .float32, 64, true, [1, 2, 3, 4]⟩⟩,
       [.gainMul, .prefilterKernel 0, .mapKernel]) := by
    simp [mapCoordinatesM, checkParameter, validModes, getOutput, coordAdjust,
      splineFilterM, getSplineOutput, splineFilterAxes, splineFilter1dM,
      normalizeAxisIndex, arrI4, coordsF2, Arr.ndim, promoteTypes, DType.kind,
      minFloatDtype, astypeCopyFalse, astypeCopy, ascontiguous, deriveTemp,
      arrCopy, castVal, truncQ, List.range_succ]
  exact ⟨hkind, hok,
    (C10_theorem_integer_input_converted_float32 arrI4 (.dt .float64) 3 "mirror"
      0 true false 40 hkind).1 coordsF2 _ _ hok⟩

/-! ## Claim C3 -/

theorem truncQ_eq_floor (q : ℚ) (h : 0 ≤ q) : truncQ q = ⌊q⌋ := if_pos h

theorem listMin_le_listMax (a : ℚ) (l : List ℚ) :
    listMinQ (a :: l) ≤ listMaxQ (a :: l) := by
  cases l with
  | nil => simp [listMaxQ, listMinQ]
  | cons b t =>
    simp only [listMaxQ, listMinQ]
    exact le_trans (min_le_left _ _) (le_max_left _ _)

theorem rotExtent0_nonneg (c s : ℚ) (iy ix : ℕ) : 0 ≤ rotExtent0 c s iy ix := by
  unfold rotExtent0 rotRow0 rotCorners
  simp only [List.map_cons, List.map_nil]
  exact sub_nonneg.mpr (listMin_le_listMax _ _)

theorem rotExtent1_nonneg (c s : ℚ) (iy ix : ℕ) : 0 ≤ rotExtent1 c s iy ix := by
  unfold rotExtent1 rotRow1 rotCorners
  simp only [List.map_cons, List.map_nil]
  exact sub_nonneg.mpr (listMin_le_listMax _ _)

/-- Claim C3, counterexample: for the angle θ = arctan(4/3) — realizable,
since (3/5)² + (4/5)² = 1 — and a 5×3 input plane, the code's reshaped
output-plane shape is (5, 6) while the claim's ceiling formula gives (6, 6)
(the extents are 27/5 and 29/5); and the code's offset is (-6/5, 11/10)
while the claim's formula `in_center - rotation · out_center` with
`out_center = rotation · ((out_plane_shape - 1)/2)` gives (4/25, 181/50). -/
theorem C3_counterexample_rotate_shape_not_ceiling :
    ((3 : ℚ)/5)^2 + ((4 : ℚ)/5)^2 = 1 ∧
    (rotateGeom (3/5) (4/5) 5 3 true).1 = (5, 6) ∧
    specCeilPlaneShape (3/5) (4/5) 5 3 = (6, 6) ∧
    (rotateGeom (3/5) (4/5) 5 3 true).2 = (-6/5, 11/10) ∧
    specClaimRotOffset (3/5) (4/5) 5 3 = (4/25, 181/50) := by
  refine ⟨by norm_num, ?_, ?_, ?_, ?_⟩
  · norm_num [rotateGeom, rotExtent0, rotExtent1, rotRow0, rotRow1, rotCorners,
      listMaxQ, listMinQ, truncQ]
  · have h0 : rotExtent0 (3/5) (4/5) 5 3 = 27/5 := by
      norm_num [rotExtent0, rotRow0, rotCorners, listMaxQ, listMinQ]
    have h1 : rotExtent1 (3/5) (4/5) 5 3 = 29/5 := by
      norm_num [rotExtent1, rotRow1, rotCorners, listMaxQ, listMinQ]
    unfold specCeilPlaneShape
    rw [h0, h1, Prod.mk.injEq]
    constructor
    · rw [Int.ceil_eq_iff] <;> norm_num
    · rw [Int.ceil_eq_iff] <;> norm_num
  · norm_num [rotateGeom, rotExtent0, rotExtent1, rotRow0, rotRow1, rotCorners,
      listMaxQ, listMinQ, truncQ]
  · norm_num [specClaimRotOffset, rotateGeom, rotExtent0, rotExtent1, rotRow0,
      rotRow1, rotCorners, listMaxQ, listMinQ, truncQ]

/-- Claim C3 (amended): with `reshape=True`, `rotate` computes the in-plane
output shape as the *round-half-up* (⌊extent + 1/2⌋, via the `+ 0.5` and
integer cast) of the rotated corner bounding-box extents — not their ceiling
— and the offset along the rotation axes as `in_center - out_center`, where
`out_center = rotation_matrix · ((out_plane_shape - 1)/2)` is the rotated
output-plane center (the rotation applied once, not twice). -/
theorem C3_theorem_rotate_shape_half_up_and_offset (c s : ℚ) (iy ix : ℕ) :
    (rotateGeom c s iy ix true).1 =
      (⌊rotExtent0 c s iy ix + 1/2⌋, ⌊rotExtent1 c s iy ix + 1/2⌋) ∧
    (rotateGeom c s iy ix true).2 = specAmendedRotOffset c s iy ix := by
  constructor
  · have hfst : (rotateGeom c s iy ix true).1 =
        (truncQ (rotExtent0 c s iy ix + 1/2), truncQ (rotExtent1 c s iy ix + 1/2)) := rfl
    rw [hfst, truncQ_eq_floor _ (by linarith [rotExtent0_nonneg c s iy ix]),
      truncQ_eq_floor _ (by linarith [rotExtent1_nonneg c s iy ix])]
  · rfl

/-! ## Claim C4 -/

/-- Cast a shape (list of extents) to integers, for comparison with the
claim-side formulas. -/
def natListToInt (l : List ℕ) : List ℤ := l.map (fun n => Int.ofNat n)

theorem pyRound_nonneg (q : ℚ) (h : 0 ≤ q) : 0 ≤ pyRound q := by
  unfold pyRound
  have hf : 0 ≤ ⌊q⌋ := Int.floor_nonneg.mpr h
  dsimp only
  split_ifs <;> omega

theorem condShape (c : Prop) [Decidable c] (a : Arr) (d : DType) (n : ℕ) :
    (if c then astypeCopy a d n else a).shape = a.shape := by
  split <;> rfl

theorem ascontiguous_shape (a : Arr) (n : ℕ) : (ascontiguous a n).shape = a.shape := by
  unfold ascontiguous
  split <;> rfl

theorem zoomShape_cast (shape : List ℕ) (z : List ℚ) (hz : ∀ q ∈ z, 0 ≤ q) :
    natListToInt
      (List.zipWith (fun (s : ℕ) (q : ℚ) => (pyRound ((s : ℚ) * q)).toNat) shape z) =
      specZoomOutputShape shape z := by
  induction shape generalizing z with
  | nil => simp [specZoomOutputShape, natListToInt]
  | cons s rest ih =>
    cases z with
    | nil => simp [specZoomOutputShape, natListToInt]
    | cons q zt =>
      have hq : 0 ≤ q := hz q (by simp)
      have hp : 0 ≤ pyRound ((s : ℚ) * q) :=
        pyRound_nonneg _ (mul_nonneg (by positivity) hq)
      simp only [List.zipWith_cons_cons, List.map_cons, specZoomOutputShape,
        natListToInt]
      rw [List.cons.injEq]
      constructor
      · rw [Int.ofNat_eq_natCast, Int.toNat_of_nonneg hp]
      · have := ih zt (fun q hq2 => hz q (by simp [hq2]))
        simp only [specZoomOutputShape, natListToInt] at this
        rw [this]

theorem zoomEffective_cast (shape : List ℕ) (z : List ℚ) (hz : ∀ q ∈ z, 0 ≤ q) :
    List.zipWith (fun (s o : ℕ) => if 1 < o then ((s : ℚ) - 1) / ((o : ℚ) - 1) else 0)
      shape
      (List.zipWith (fun (s : ℕ) (q : ℚ) => (pyRound ((s : ℚ) * q)).toNat) shape z) =
    specEffectiveZoom shape z := by
  induction shape generalizing z with
  | nil => simp [specEffectiveZoom, specZoomOutputShape]
  | cons s rest ih =>
    cases z with
    | nil => simp [specEffectiveZoom, specZoomOutputShape]
    | cons q zt =>
      have hq : 0 ≤ q := hz q (by simp)
      have hp : 0 ≤ pyRound ((s : ℚ) * q) :=
        pyRound_nonneg _ (mul_nonneg (by positivity) hq)
      simp only [List.zipWith_cons_cons, specEffectiveZoom, specZoomOutputShape]
      have hiff : 1 < (pyRound ((s : ℚ) * q)).toNat ↔ 1 < pyRound ((s : ℚ) * q) := by
        omega
      have hcast : (((pyRound ((s : ℚ) * q)).toNat : ℕ) : ℚ) =
          ((pyRound ((s : ℚ) * q) : ℤ) : ℚ) := by
        rw [← Int.cast_natCast, Int.toNat_of_nonneg hp]
      have := ih zt (fun q hq2 => hz q (by simp [hq2]))
      simp only [specEffectiveZoom, specZoomOutputShape] at this
      rw [List.cons.injEq]
      refine ⟨?_, this⟩
      by_cases h1 : 1 < pyRound ((s : ℚ) * q)
      · rw [if_pos (hiff.mpr h1), if_pos h1, hcast]
      · rw [if_neg (fun hc => h1 (hiff.mp hc)), if_neg h1]

/-- Claim C4: for every input shape and (componentwise nonnegative) zoom
vector of matching length, in any recognized non-opencv mode, `zoom` computes
each output extent as `round(input_extent * zoom_factor)` (Python 3 `round`,
half to even) and passes the sampling kernel the effective per-axis factor
`(input_extent - 1)/(output_extent - 1)` — not the raw requested factor —
with the factor forced to 0 for any axis whose output extent is not greater
than 1. -/
theorem C4_theorem_zoom_output_shape_and_effective_factor
    (shape : List ℕ) (dt : DType) (st : ℕ) (ct : Bool) (vals : List ℚ)
    (z : List ℚ) (mode : String) (cval : ℚ) (fresh : ℕ)
    (hmode : mode ∈ validModes) (hoc : mode ≠ "opencv")
    (hlen : z.length = shape.length) (hz : ∀ q ∈ z, 0 ≤ q) :
    ((zoomM ⟨shape, dt, st, ct, vals⟩ (.array [z.length] z) .none 0 mode cval
        false true fresh).1.map
      (fun pr => natListToInt pr.ret.shape)) =
      .ok (specZoomOutputShape shape z) ∧
    (zoomM ⟨shape, dt, st, ct, vals⟩ (.array [z.length] z) .none 0 mode cval
        false true fresh).2 = [Event.zoomKernel (specEffectiveZoom shape z)] := by
  have hck : checkParameter "zoom" 0 mode = .ok () := by
    unfold checkParameter
    rw [if_neg (by omega), if_pos hmode]
  unfold zoomM
  rw [hck]
  dsimp only
  have h1 : (if ([z.length] : List ℕ).length = 1 then some z else none) = some z := by
    simp
  rw [h1]
  dsimp only
  rw [if_neg hoc]
  have h2 : getOutput .none (⟨shape, dt, st, ct, vals⟩ : Arr)
      (some (List.zipWith (fun (s : ℕ) (q : ℚ) => (pyRound ((s : ℚ) * q)).toNat) shape z))
      (fresh + 1) =
      .ok ⟨List.zipWith (fun (s : ℕ) (q : ℚ) => (pyRound ((s : ℚ) * q)).toNat) shape z,
        dt, fresh + 1, true,
        List.replicate
          (List.zipWith (fun (s : ℕ) (q : ℚ) => (pyRound ((s : ℚ) * q)).toNat) shape z).prod
          0⟩ := rfl
  rw [h2]
  dsimp only
  rw [if_neg (by simp : ¬(false = true ∧ (0 : ℤ) > 1))]
  dsimp only
  rw [if_neg (show ¬((List.zipWith
      (fun (s o : ℕ) => if 1 < o then ((s : ℚ) - 1) / ((o : ℚ) - 1) else 0)
      shape
      (List.zipWith (fun (s : ℕ) (q : ℚ) => (pyRound ((s : ℚ) * q)).toNat) shape z)).length ≠
      (ascontiguous (if dt.kind = 'i' ∨ dt.kind = 'u'
        then astypeCopy (⟨shape, dt, st, ct, vals⟩ : Arr) DType.float32 (fresh + 2)
        else (⟨shape, dt, st, ct, vals⟩ : Arr)) (fresh + 30)).ndim) by
    rw [not_ne_iff]
    unfold Arr.ndim
    rw [ascontiguous_shape, condShape]
    simp [List.length_zipWith, hlen])]
  dsimp only
  constructor
  · dsimp only [Except.map]
    rw [zoomShape_cast shape z hz]
  · rw [List.nil_append, zoomEffective_cast shape z hz]


/-- Witness for the C4 theorem: zoom factor 2 on a length-4 axis gives the
output extent round(4·2) = 8 and the effective factor (4-1)/(8-1) = 3/7. -/
theorem C4_witness_zoom_length_four_factor_two :
    ("constant" ∈ validModes) ∧ ("constant" : String) ≠ "opencv" ∧
    ([(2 : ℚ)].length = [(4 : ℕ)].length) ∧ (∀ q ∈ [(2 : ℚ)], 0 ≤ q) ∧
    (((zoomM ⟨[4], .float64, 0, true, [0, 1, 2, 3]⟩ (.array [[(2 : ℚ)].length] [2])
        .none 0 "constant" 0 false true 7).1.map
      (fun pr => natListToInt pr.ret.shape)) =
      .ok (specZoomOutputShape [4] [2]) ∧
    (zoomM ⟨[4], .float64, 0, true, [0, 1, 2, 3]⟩ (.array [[(2 : ℚ)].length] [2])
        .none 0 "constant" 0 false true 7).2 =
      [Event.zoomKernel (specEffectiveZoom [4] [2])]) := by
  have hm : "constant" ∈ validModes := by simp [validModes]
  have hz : ∀ q ∈ [(2 : ℚ)], 0 ≤ q := by norm_num
  exact ⟨hm, by simp, rfl, hz,
    C4_theorem_zoom_output_shape_and_effective_factor [4] .float64 0 true
      [0, 1, 2, 3] [2] "constant" 0 7 hm (by simp) rfl hz⟩

/-! ## Instantiation witnesses for the universally quantified theorems -/

/-- Witness instantiating the C5 theorem at order 1 (the order `spline_filter`
rejects while the other operations accept it). -/
theorem C5_witness_order_one :
    ((splineFilterM arrF1 1 .none "mirror" true 5).1 = .error .invalidOrder
      ↔ ((1 : ℤ) < 2 ∨ 5 < (1 : ℤ))) ∧
    ((shiftM arrF1 (.scalar 0) .none 1 "mirror" 0 false true 5).1 = .error .invalidOrder
      ↔ ((1 : ℤ) < 0 ∨ 5 < (1 : ℤ))) :=
  ⟨(C5_theorem_order_validation_per_operation 1).2.1,
   (C5_theorem_order_validation_per_operation 1).2.2.2.2.1⟩

/-- Witness instantiating the C7 theorem at the unrecognized mode "bogus". -/
theorem C7_witness_bogus_mode :
    ((mapCoordinatesM arrF1 coordsF1 .none 3 "bogus" 0 false true 5).1 = .error .invalidMode
      ↔ "bogus" ∉ validModes) ∧
    ((splineFilterM arrF1 3 .none "bogus" true 5).1 = .ok ⟨[1], .float64, 7, true, [0]⟩) :=
  ⟨(C7_theorem_mode_validation_scope "bogus").1,
   (C7_theorem_mode_validation_scope "bogus").2.2⟩

/-- Witness instantiating the amended C3 theorem at cos θ = 3/5, sin θ = 4/5
on a 5×3 plane. -/
theorem C3_witness_rotate_geometry :
    (rotateGeom (3/5) (4/5) 5 3 true).1 =
      (⌊rotExtent0 (3/5) (4/5) 5 3 + 1/2⌋, ⌊rotExtent1 (3/5) (4/5) 5 3 + 1/2⌋) ∧
    (rotateGeom (3/5) (4/5) 5 3 true).2 = specAmendedRotOffset (3/5) (4/5) 5 3 :=
  C3_theorem_rotate_shape_half_up_and_offset (3/5) (4/5) 5 3

end CupyImg

